import Mathlib

/-!
Verification of the sneaker_inventory_app ingestion pipeline.

Strings are modelled as lists of byte values (`List Nat`); every string
constant used by the source is given as an explicit ASCII byte list.
JavaScript base64 (`btoa`/`atob`), `parseInt` and `String.split` are
modelled faithfully below; the repository functions
(`encodeWarehouseId`, `base64Decode`, `decodeShipHeroId`,
`StreamingSnapshotParser.parseAndExtract`, `processBatches`,
`bulk_upsert_inventory_positions`, `updateSyncJobStatus`, the
check-snapshot per-job handler and the abort handler) are translated
from `src/supabase/functions` and `src/supabase/migrations`.
-/

namespace Snapshot

/-- Bytes of the ASCII string "Warehouse" (the type tag used by
`encodeWarehouseId` before the colon). -/
def warehouseTagBytes : List Nat := [87, 97, 114, 101, 104, 111, 117, 115, 101]

/-- Bytes of the ASCII string "products" (the new-format wrapper key). -/
def productsKey : List Nat := [112, 114, 111, 100, 117, 99, 116, 115]

/-- Bytes of the ASCII string "warehouse_products". -/
def warehouseProductsKey : List Nat := [119, 97, 114, 101, 104, 111, 117, 115, 101, 95, 112, 114, 111, 100, 117, 99, 116, 115]

/-- Bytes of the ASCII string "item_bins". -/
def itemBinsKey : List Nat := [105, 116, 101, 109, 95, 98, 105, 110, 115]

/-- Bytes of the ASCII string "on_hand". -/
def onHandKey : List Nat := [111, 110, 95, 104, 97, 110, 100]

/-- Bytes of the ASCII string "quantity". -/
def quantityKey : List Nat := [113, 117, 97, 110, 116, 105, 116, 121]

/-- Bytes of the ASCII string "name". -/
def nameKey : List Nat := [110, 97, 109, 101]

/-- Bytes of the ASCII string "location_name". -/
def locationNameKey : List Nat := [108, 111, 99, 97, 116, 105, 111, 110, 95, 110, 97, 109, 101]

/-- Bytes of the ASCII string "DEFAULT" (sentinel bin name). -/
def defaultBinBytes : List Nat := [68, 69, 70, 65, 85, 76, 84]

/-- Bytes of the ASCII string "UNKNOWN" (fallback bin label). -/
def unknownBytes : List Nat := [85, 78, 75, 78, 79, 87, 78]

/-- Bytes of the ASCII string "not found". -/
def notFoundBytes : List Nat := [110, 111, 116, 32, 102, 111, 117, 110, 100]

/-- Bytes of the ASCII string "does not exist". -/
def doesNotExistBytes : List Nat := [100, 111, 101, 115, 32, 110, 111, 116, 32, 101, 120, 105, 115, 116]

/-- Bytes of the ASCII string "complete". -/
def completeBytes : List Nat := [99, 111, 109, 112, 108, 101, 116, 101]

/-- Bytes of the ASCII string "success". -/
def successBytes : List Nat := [115, 117, 99, 99, 101, 115, 115]

/-- Bytes of the ASCII string "error". -/
def errorBytes : List Nat := [101, 114, 114, 111, 114]

/-- Bytes of the ASCII string "failed". -/
def failedBytes : List Nat := [102, 97, 105, 108, 101, 100]

/-- Bytes of the ASCII string "aborted". -/
def abortedBytes : List Nat := [97, 98, 111, 114, 116, 101, 100]

/-- Bytes of the ASCII string "already". -/
def alreadyBytes : List Nat := [97, 108, 114, 101, 97, 100, 121]

/-- Bytes of the ASCII string "process". -/
def processWordBytes : List Nat := [112, 114, 111, 99, 101, 115, 115]

/-- Bytes of the ASCII string "cannot abort". -/
def cannotAbortBytes : List Nat := [99, 97, 110, 110, 111, 116, 32, 97, 98, 111, 114, 116]

/-- Bytes of the ASCII string "No pending snapshots found". -/
def noPendingMsgBytes : List Nat := [78, 111, 32, 112, 101, 110, 100, 105, 110, 103, 32, 115, 110, 97, 112, 115, 104, 111, 116, 115, 32, 102, 111, 117, 110, 100]

/-- Bytes of the ASCII string "Invalid warehouse ID: " (error message stem). -/
def invalidWarehouseMsgBytes : List Nat := [73, 110, 118, 97, 108, 105, 100, 32, 119, 97, 114, 101, 104, 111, 117, 115, 101, 32, 73, 68, 58, 32]

/-- Bytes of the ASCII string "Snapshot not found in ShipHero". -/
def snapshotNotFoundMsgBytes : List Nat := [83, 110, 97, 112, 115, 104, 111, 116, 32, 110, 111, 116, 32, 102, 111, 117, 110, 100, 32, 105, 110, 32, 83, 104, 105, 112, 72, 101, 114, 111]

/-- Bytes of the ASCII string "ShipHero API error: " (error message stem). -/
def apiErrorMsgBytes : List Nat := [83, 104, 105, 112, 72, 101, 114, 111, 32, 65, 80, 73, 32, 101, 114, 114, 111, 114, 58, 32]

/-- Bytes of the ASCII string "Job timed out after 2 hours. Please trigger a new sync.". -/
def staleTimeoutMsgBytes : List Nat := [74, 111, 98, 32, 116, 105, 109, 101, 100, 32, 111, 117, 116, 32, 97, 102, 116, 101, 114, 32, 50, 32, 104, 111, 117, 114, 115, 46, 32, 80, 108, 101, 97, 115, 101, 32, 116, 114, 105, 103, 103, 101, 114, 32, 97, 32, 110, 101, 119, 32, 115, 121, 110, 99, 46]

/-- Bytes of the ASCII string "Cancelled by user" (default abort reason). -/
def cancelledByUserBytes : List Nat := [67, 97, 110, 99, 101, 108, 108, 101, 100, 32, 98, 121, 32, 117, 115, 101, 114]

/-- Bytes of the ASCII string "Batch " (error message stem). -/
def batchWordBytes : List Nat := [66, 97, 116, 99, 104, 32]

/-- Bytes of the ASCII string " failed: " (error message separator). -/
def failedSepBytes : List Nat := [32, 102, 97, 105, 108, 101, 100, 58, 32]

/-- Bytes of the ASCII string " exception: " (error message separator). -/
def exceptionSepBytes : List Nat := [32, 101, 120, 99, 101, 112, 116, 105, 111, 110, 58, 32]

/-- Bytes of the ASCII string "Warehouse:123" (a plain-text identifier). -/
def wh123PlainBytes : List Nat := [87, 97, 114, 101, 104, 111, 117, 115, 101, 58, 49, 50, 51]

/-! ## Base64 (the JavaScript `btoa` / `atob` builtins)

`btoa` is RFC 4648 base64 over a byte string; `atob` is the WHATWG
"forgiving-base64 decode": strip ASCII whitespace, strip up to two
trailing padding characters when the length is a multiple of four, fail
when the remaining length is congruent 1 mod 4 or a character is outside
the alphabet, then decode. Bit operations are written with `/` and `%`
(for natural numbers `x >>> k = x / 2 ^ k` and `x &&& (2 ^ k - 1) = x % 2 ^ k`). -/

/-- The 64 alphabet bytes `A-Z a-z 0-9 + /` in sextet order. -/
def b64Alphabet : List Nat :=
  [65, 66, 67, 68, 69, 70, 71, 72, 73, 74, 75, 76, 77, 78, 79, 80, 81, 82,
   83, 84, 85, 86, 87, 88, 89, 90,
   97, 98, 99, 100, 101, 102, 103, 104, 105, 106, 107, 108, 109, 110, 111,
   112, 113, 114, 115, 116, 117, 118, 119, 120, 121, 122,
   48, 49, 50, 51, 52, 53, 54, 55, 56, 57, 43, 47]

/-- Alphabet byte of a sextet value. -/
def sextetToChar (x : Nat) : Nat := b64Alphabet.getD x 65

/-- Sextet value of an alphabet byte; `none` for a byte outside the alphabet. -/
def charToSextet (c : Nat) : Option Nat := b64Alphabet.findIdx? (fun y => y == c)

/-- Byte groups of three encoded to sextet groups of four (final group of
one or two bytes encoded to two or three sextets, padding added separately). -/
def encodeGroups : List Nat → List Nat
  | a :: b :: c :: rest =>
      a / 4 :: ((a % 4) * 16 + b / 16) :: ((b % 16) * 4 + c / 64) :: (c % 64) ::
        encodeGroups rest
  | [a, b] => [a / 4, (a % 4) * 16 + b / 16, (b % 16) * 4]
  | [a] => [a / 4, (a % 4) * 16]
  | [] => []

/-- Sextet groups of four decoded back to byte groups of three (final group
of two or three sextets decoded to one or two bytes). -/
def decodeGroups : List Nat → List Nat
  | x :: y :: z :: w :: rest =>
      (x * 4 + y / 16) :: ((y % 16) * 16 + z / 4) :: ((z % 4) * 64 + w) ::
        decodeGroups rest
  | [x, y, z] => [x * 4 + y / 16, (y % 16) * 16 + z / 4]
  | [x, y] => [x * 4 + y / 16]
  | _ => []

/-- ASCII whitespace stripped by forgiving-base64 decode. -/
def isAsciiWs (c : Nat) : Bool := c == 9 || c == 10 || c == 12 || c == 13 || c == 32

/-- Removes one or two trailing padding bytes 61 (the character =). -/
def dropPad (l : List Nat) : List Nat :=
  if l.getLast? == some 61 then
    if l.dropLast.getLast? == some 61 then l.dropLast.dropLast else l.dropLast
  else l

/-- Maps a function returning `Option` over a list, failing when any element fails. -/
def mapOpt (f : α → Option β) : List α → Option (List β)
  | [] => some []
  | a :: l =>
      match f a, mapOpt f l with
      | some b, some bs => some (b :: bs)
      | _, _ => none

/-- The JavaScript `btoa` builtin: RFC 4648 base64 of a byte string.
`btoa` throws for code units above 255; every call in the source encodes
an ASCII string, so the encoder is total here and the range check is the
hypothesis of the round-trip theorem. -/
def base64EncodeBytes (s : List Nat) : List Nat :=
  (encodeGroups s).map sextetToChar ++
    (if s.length % 3 == 1 then [61, 61] else if s.length % 3 == 2 then [61] else [])

/-- The JavaScript `atob` builtin (WHATWG forgiving-base64 decode);
`none` models the thrown `InvalidCharacterError`. -/
def atob (s : List Nat) : Option (List Nat) :=
  let d0 := s.filter (fun c => !(isAsciiWs c))
  let d := if d0.length % 4 == 0 then dropPad d0 else d0
  if d.length % 4 == 1 then none
  else (mapOpt charToSextet d).map decodeGroups

/-- Translation of `base64Decode` (process-snapshot/index.ts lines 78-85):
`atob` inside try/catch, returning the raw input when decoding throws. -/
def base64Decode (encoded : List Nat) : List Nat :=
  (atob encoded).getD encoded

/-! ## JavaScript parseInt and String.split -/

/-- JavaScript whitespace skipped by `parseInt` (ASCII part). -/
def isJsWs (c : Nat) : Bool := c == 9 || c == 10 || c == 11 || c == 12 || c == 13 || c == 32

/-- Decimal digit test. -/
def isDigit (c : Nat) : Bool := 48 ≤ c && c ≤ 57

/-- Value of the longest leading run of decimal digits; `none` (NaN) when
the run is empty. -/
def parseDigits (s : List Nat) : Option Nat :=
  let ds := s.takeWhile isDigit
  if ds.isEmpty then none
  else some (ds.foldl (fun acc c => acc * 10 + (c - 48)) 0)

/-- The JavaScript `parseInt(s, 10)` builtin: skip whitespace, optional
sign, longest digit run, NaN (here `none`) when no digit is found. -/
def parseIntDec (s : List Nat) : Option Int :=
  let t := s.dropWhile isJsWs
  match t with
  | [] => none
  | c :: rest =>
      if c == 43 then (parseDigits rest).map (fun m => (m : Int))
      else if c == 45 then (parseDigits rest).map (fun m => -(m : Int))
      else (parseDigits t).map (fun m => (m : Int))

/-- The JavaScript `String.split` on a one-byte separator: always returns
at least one (possibly empty) segment. -/
def splitOnByte (sep : Nat) : List Nat → List (List Nat)
  | [] => [[]]
  | c :: rest =>
      match splitOnByte sep rest with
      | [] => [[]]
      | cur :: groups =>
          if c == sep then [] :: cur :: groups else (c :: cur) :: groups

/-! ## The Identifier Codec -/

/-- Fuel-driven helper for `natDecBytes`; any fuel at least the number
itself is enough, the zero-fuel branch is unreachable then. Structural
recursion on the fuel keeps the definition kernel-reducible. -/
def natDecAux (fuel : Nat) (n : Nat) : List Nat :=
  match fuel with
  | 0 => [48 + n % 10]
  | fuel + 1 => if n < 10 then [48 + n] else natDecAux fuel (n / 10) ++ [48 + n % 10]

/-- Decimal digit bytes of a natural number, most significant first (the
template-literal rendering of a nonnegative integer). -/
def natDecBytes (n : Nat) : List Nat := natDecAux n n

/-- Translation of `encodeWarehouseId` (trigger-snapshot/index.ts lines
101-105): `btoa` of the ASCII string `Warehouse:` followed by the decimal
rendering of the id (byte 58 is the colon). -/
def encodeWarehouseId (plainId : Nat) : List Nat :=
  base64EncodeBytes (warehouseTagBytes ++ 58 :: natDecBytes plainId)

/-- Translation of `decodeShipHeroId` (process-snapshot/index.ts lines
92-110): base64-decode (with raw fallback), split on the colon, parse the
last segment when there are at least two segments, the whole string
otherwise. The source's `parts[parts.length - 1]` is `getLastD` here;
`splitOnByte` never returns an empty list. -/
def decodeShipHeroId (base64Id : List Nat) : Option Int :=
  let decoded := base64Decode base64Id
  let parts := splitOnByte 58 decoded
  if 2 ≤ parts.length then parseIntDec (parts.getLastD [])
  else parseIntDec decoded

/-- Bytes of the ASCII string "Timed out after 2 hours". -/
def timedOutShortBytes : List Nat := [84, 105, 109, 101, 100, 32, 111, 117, 116, 32, 97, 102, 116, 101, 114, 32, 50, 32, 104, 111, 117, 114, 115]

/-- Bytes of the ASCII string "API error: " (per-job result stem). -/
def apiErrorShortBytes : List Nat := [65, 80, 73, 32, 101, 114, 114, 111, 114, 58, 32]

/-- Bytes of the ASCII string "GraphQL error" (fallback message). -/
def gqlErrorBytes : List Nat := [71, 114, 97, 112, 104, 81, 76, 32, 101, 114, 114, 111, 114]

/-- Bytes of the ASCII string "Failed to trigger processing: " (stem). -/
def failedTriggerMsgBytes : List Nat := [70, 97, 105, 108, 101, 100, 32, 116, 111, 32, 116, 114, 105, 103, 103, 101, 114, 32, 112, 114, 111, 99, 101, 115, 115, 105, 110, 103, 58, 32]

/-- Bytes of the ASCII string "Processing error: " (stem). -/
def processingErrorMsgBytes : List Nat := [80, 114, 111, 99, 101, 115, 115, 105, 110, 103, 32, 101, 114, 114, 111, 114, 58, 32]

/-- Bytes of the ASCII string "Snapshot failed or was aborted on ShipHero". -/
def snapshotFailedMsgBytes : List Nat := [83, 110, 97, 112, 115, 104, 111, 116, 32, 102, 97, 105, 108, 101, 100, 32, 111, 114, 32, 119, 97, 115, 32, 97, 98, 111, 114, 116, 101, 100, 32, 111, 110, 32, 83, 104, 105, 112, 72, 101, 114, 111]

/-- Bytes of the ASCII string "No credentials found". -/
def noCredsMsgBytes : List Nat := [78, 111, 32, 99, 114, 101, 100, 101, 110, 116, 105, 97, 108, 115, 32, 102, 111, 117, 110, 100]

/-- Bytes of the ASCII string "Marked as cancelled (ShipHero snapshot still processing in background)". -/
def softCancelMsgBytes : List Nat := [77, 97, 114, 107, 101, 100, 32, 97, 115, 32, 99, 97, 110, 99, 101, 108, 108, 101, 100, 32, 40, 83, 104, 105, 112, 72, 101, 114, 111, 32, 115, 110, 97, 112, 115, 104, 111, 116, 32, 115, 116, 105, 108, 108, 32, 112, 114, 111, 99, 101, 115, 115, 105, 110, 103, 32, 105, 110, 32, 98, 97, 99, 107, 103, 114, 111, 117, 110, 100, 41]

/-- Bytes of the ASCII string "Snapshot aborted successfully". -/
def abortOkMsgBytes : List Nat := [83, 110, 97, 112, 115, 104, 111, 116, 32, 97, 98, 111, 114, 116, 101, 100, 32, 115, 117, 99, 99, 101, 115, 115, 102, 117, 108, 108, 121]

/-- Bytes of the ASCII string "ShipHero: " (soft-cancel note stem). -/
def shipheroStemBytes : List Nat := [83, 104, 105, 112, 72, 101, 114, 111, 58, 32]

/-- Bytes of the ASCII string ". Marked as cancelled locally." (soft-cancel note tail). -/
def markedLocallyBytes : List Nat := [46, 32, 77, 97, 114, 107, 101, 100, 32, 97, 115, 32, 99, 97, 110, 99, 101, 108, 108, 101, 100, 32, 108, 111, 99, 97, 108, 108, 121, 46]

/-! ## Loosely-typed JSON values

Model of a parsed JavaScript value (the output of `JSON.parse`): object
keys are distinct and listed in enumeration order, numbers are integers
(every quantity in a snapshot file is an integer count). -/

inductive Json where
  | null : Json
  | bool : Bool → Json
  | num : Int → Json
  | str : List Nat → Json
  | arr : List Json → Json
  | obj : List (List Nat × Json) → Json

/-- JavaScript member access `j.k` for a parsed value: a field of an
object, `undefined` (here `none`) otherwise. -/
def Json.getField (j : Json) (k : List Nat) : Option Json :=
  match j with
  | Json.obj fs => fs.lookup k
  | _ => none

/-- `Object.entries`: key/value pairs of an object, index/element pairs of
an array, index/character pairs of a string, empty for other primitives. -/
def Json.entriesOf (j : Json) : List (List Nat × Json) :=
  match j with
  | Json.obj fs => fs
  | Json.arr xs => xs.enum.map (fun p => (natDecBytes p.1, p.2))
  | Json.str s => s.enum.map (fun p => (natDecBytes p.1, Json.str [p.2]))
  | _ => []

/-- The test `v && typeof v === "object"` used throughout the parser:
true exactly for objects and arrays (`null` is of type object but falsy). -/
def isObjectTruthy : Json → Bool
  | Json.obj _ => true
  | Json.arr _ => true
  | _ => false

/-! ## The Streaming Ingestion Engine (StreamingSnapshotParser.parseAndExtract) -/

/-- One flattened inventory record (process-snapshot/index.ts lines 17-23). -/
structure InventoryRecord where
  sku : List Nat
  warehouse_id : Int
  bin_name : List Nat
  bin_id : Option Int
  quantity : Int
deriving DecidableEq

/-- Parser statistics (process-snapshot/index.ts lines 58-63). -/
structure ProcessingStats where
  total_records : Nat
  batches_processed : Nat
  errors : List (List Nat)
  skus_processed : Nat
deriving DecidableEq

/-- The value of `binData.quantity || 0`, for documents whose quantity
fields are JSON numbers or absent/null; the `ValidSnapshot` predicate
used by every theorem restricts quantities to numbers, so the JavaScript
string/boolean coercions never arise. A falsy `0` stays `0`. -/
def jsonQty (v : Option Json) : Int :=
  match v with
  | some (Json.num n) => n
  | _ => 0

/-- Truthiness of an optional string field (`binData.name`,
`binData.location_name`): a present nonempty string, `none` otherwise. -/
def jsTruthyStr (v : Option Json) : Option (List Nat) :=
  match v with
  | some (Json.str s) => if s.isEmpty then none else some s
  | _ => none

/-- Translation of the per-bin body of the parser loop (lines 201-221):
skip non-object bins, skip quantities at or below zero, decode the bin id
best-effort, take the label from the name/location_name payload fields
with fallback "UNKNOWN". -/
def processBinEntry (sku : List Nat) (warehouseId : Int) (binIdBase64 : List Nat)
    (binData : Json) : Option InventoryRecord :=
  if !(isObjectTruthy binData) then none
  else
    let quantity := jsonQty (binData.getField quantityKey)
    if quantity ≤ 0 then none
    else
      let binId := decodeShipHeroId binIdBase64
      let binName :=
        match jsTruthyStr (binData.getField nameKey) with
        | some s => s
        | none =>
            match jsTruthyStr (binData.getField locationNameKey) with
            | some s => s
            | none => unknownBytes
      some { sku := sku, warehouse_id := warehouseId, bin_name := binName,
             bin_id := binId, quantity := quantity }

/-- The guard on `item_bins` (line 184): present, of object type, truthy
and with at least one key. -/
def binsUsable (v : Option Json) : Bool :=
  match v with
  | some j => isObjectTruthy j && !(j.entriesOf.isEmpty)
  | none => false

/-- Translation of the no-bins branch (lines 185-197): one record at the
sentinel bin "DEFAULT" when `on_hand` is defined and positive. The
`on_hand` field is a JSON number or absent/null under `ValidSnapshot`. -/
def defaultRecordOf (sku : List Nat) (warehouseId : Int) (wd : Json) : List InventoryRecord :=
  match wd.getField onHandKey with
  | some (Json.num q) =>
      if 0 < q then
        [{ sku := sku, warehouse_id := warehouseId, bin_name := defaultBinBytes,
           bin_id := none, quantity := q }]
      else []
  | _ => []

/-- Translation of the per-warehouse body of the parser loop (lines
174-222): skip non-objects, record an error and skip when the warehouse
id does not decode, then either flatten the bins or fall back to the
DEFAULT record. Returns the records and errors this entry contributes. -/
def processWarehouseEntry (sku : List Nat) (wkey : List Nat) (wd : Json) :
    List InventoryRecord × List (List Nat) :=
  if !(isObjectTruthy wd) then ([], [])
  else
    match decodeShipHeroId wkey with
    | none => ([], [invalidWarehouseMsgBytes ++ wkey])
    | some warehouseId =>
        let itemBins := wd.getField itemBinsKey
        if binsUsable itemBins then
          ((Json.entriesOf (itemBins.getD Json.null)).filterMap
            (fun be => processBinEntry sku warehouseId be.1 be.2), [])
        else (defaultRecordOf sku warehouseId wd, [])

/-- Translation of the per-SKU body of the parser loop (lines 167-225):
skip non-object SKU data and SKU data without an object
`warehouse_products`; the third component is this entry's contribution to
`skus_processed` (1 exactly when the entry is processed). -/
def processSkuEntry (e : List Nat × Json) : List InventoryRecord × List (List Nat) × Nat :=
  if !(isObjectTruthy e.2) then ([], [], 0)
  else
    match e.2.getField warehouseProductsKey with
    | some wp =>
        if !(isObjectTruthy wp) then ([], [], 0)
        else
          let outs := wp.entriesOf.map (fun we => processWarehouseEntry e.1 we.1 we.2)
          ((outs.map Prod.fst).flatten, (outs.map Prod.snd).flatten, 1)
    | none => ([], [], 0)

/-- Translation of the format detection (lines 149-162): the new format
is recognised when the `products` member is truthy and of object type,
otherwise the whole document is taken as the legacy SKU map. -/
def productsDataOf (rawData : Json) : Json :=
  match rawData.getField productsKey with
  | some v => if isObjectTruthy v then v else rawData
  | none => rawData

/-- Translation of `StreamingSnapshotParser.parseAndExtract` (lines
141-236): detect the format, flatten every SKU entry, and accumulate
records, errors and the SKU count. `total_records` is incremented once
per pushed record in the source, hence it equals the length of the
record list; `batches_processed` is still zero at this point. -/
def parseAndExtract (rawData : Json) : List InventoryRecord × ProcessingStats :=
  let productsData := productsDataOf rawData
  let outs := productsData.entriesOf.map processSkuEntry
  let records := (outs.map (fun o => o.1)).flatten
  let errors := (outs.map (fun o => o.2.1)).flatten
  let skus := (outs.map (fun o => o.2.2)).sum
  (records,
   { total_records := records.length, batches_processed := 0,
     errors := errors, skus_processed := skus })

/-! ## Spec-side flattening (for the refinement claim C2)

The following definitions follow the words of the specification (§4.4
flattening rules and §8 testable properties), not the source, and are
compared with `parseAndExtract` in the flattening theorem. -/

/-- Modelled from the spec: a snapshot file is valid when optional string
fields are strings, quantities and `on_hand` are numbers or absent. -/
def validStrField (v : Option Json) : Bool :=
  match v with
  | none => true
  | some (Json.str _) => true
  | some _ => false

/-- Modelled from the spec: a valid bin payload is an object whose
`quantity` is a number and whose label fields are strings or absent. -/
def validBin (b : Json) : Bool :=
  match b with
  | Json.obj _ =>
      (match b.getField quantityKey with
       | some (Json.num _) => true
       | _ => false) &&
      validStrField (b.getField nameKey) && validStrField (b.getField locationNameKey)
  | _ => false

/-- Modelled from the spec: `on_hand` is a number or absent/null. -/
def validOnHand (wd : Json) : Bool :=
  match wd.getField onHandKey with
  | none => true
  | some (Json.num _) => true
  | some Json.null => true
  | some _ => false

/-- Modelled from the spec: a valid per-warehouse entry has a decodable
opaque identifier, an object value, a valid `on_hand`, and an `item_bins`
that is absent or an object of valid bins. -/
def validWarehouseEntry (we : List Nat × Json) : Bool :=
  (decodeShipHeroId we.1).isSome &&
  (match we.2 with
   | Json.obj _ =>
       validOnHand we.2 &&
       (match we.2.getField itemBinsKey with
        | none => true
        | some (Json.obj bs) => bs.all (fun be => validBin be.2)
        | some _ => false)
   | _ => false)

/-- Modelled from the spec: a valid SKU entry is an object with an object
`warehouse_products` map of valid per-warehouse entries. -/
def validSkuEntry (se : List Nat × Json) : Bool :=
  match se.2 with
  | Json.obj _ =>
      (match se.2.getField warehouseProductsKey with
       | some (Json.obj ws) => ws.all validWarehouseEntry
       | _ => false)
  | _ => false

/-- Modelled from the spec: validity of a whole products map. -/
def validProducts (fs : List (List Nat × Json)) : Bool := fs.all validSkuEntry

/-- Modelled from the spec (§4.4): the DEFAULT record emitted when an
entry has no bin breakdown but a positive aggregate on-hand quantity. -/
def specDefaultRecords (sku : List Nat) (warehouseId : Int) (wd : Json) : List InventoryRecord :=
  match wd.getField onHandKey with
  | some (Json.num q) =>
      if 0 < q then
        [{ sku := sku, warehouse_id := warehouseId, bin_name := defaultBinBytes,
           bin_id := none, quantity := q }]
      else []
  | _ => []

/-- Modelled from the spec (§4.4, §8): exactly one record per bin entry
whose quantity is positive, none otherwise; best-effort bin id; label
from the payload's name/location field. -/
def specBinRecord (sku : List Nat) (warehouseId : Int) (be : List Nat × Json) :
    Option InventoryRecord :=
  match be.2.getField quantityKey with
  | some (Json.num q) =>
      if 0 < q then
        some { sku := sku, warehouse_id := warehouseId,
               bin_name :=
                 (match jsTruthyStr (be.2.getField nameKey) with
                  | some s => s
                  | none =>
                      match jsTruthyStr (be.2.getField locationNameKey) with
                      | some s => s
                      | none => unknownBytes),
               bin_id := decodeShipHeroId be.1, quantity := q }
      else none
  | _ => none

/-- Modelled from the spec (§4.4): records of one per-warehouse entry —
per-bin records when a bin breakdown exists, the DEFAULT record
otherwise; an undecodable identifier skips the entry. -/
def specWarehouseRecords (sku : List Nat) (we : List Nat × Json) : List InventoryRecord :=
  match decodeShipHeroId we.1 with
  | none => []
  | some warehouseId =>
      match we.2.getField itemBinsKey with
      | some (Json.obj bs) =>
          if bs.isEmpty then specDefaultRecords sku warehouseId we.2
          else bs.filterMap (specBinRecord sku warehouseId)
      | _ => specDefaultRecords sku warehouseId we.2

/-- Modelled from the spec (§4.4, §8): the full expected record list of a
valid products map, one SKU after the other. -/
def specExpectedRecords (fs : List (List Nat × Json)) : List InventoryRecord :=
  (fs.map (fun se =>
    match se.2.getField warehouseProductsKey with
    | some (Json.obj ws) => (ws.map (specWarehouseRecords se.1)).flatten
    | _ => [])).flatten

/-! ## The Batch Upsert Writer

The table `inventory_positions` is a list of rows, unique on the
composite key. The repository holds two conflict resolutions for it.
The write the pipeline actually performs is the supabase client upsert
of `processBatches` (process-snapshot/index.ts lines 266-280) with
`onConflict: "sku,warehouse_id,bin_name"` and
`ignoreDuplicates: false`: PostgREST's merge-duplicates resolution is
`ON CONFLICT (sku, warehouse_id, bin_name) DO UPDATE SET col =
EXCLUDED.col` for every payload column, so `quantity` AND `bin_id` are
replaced unconditionally, a null `bin_id` included. The migration
helper `bulk_upsert_inventory_positions` (00001_initial_schema.sql
lines 269-304) instead coalesces: `quantity = EXCLUDED.quantity`,
`bin_id = COALESCE(EXCLUDED.bin_id, inventory_positions.bin_id)` — but
no code in the repository invokes that helper. -/

/-- The composite conflict key (sku, warehouse_id, bin_name). -/
def InventoryRecord.key (r : InventoryRecord) : List Nat × Int × List Nat :=
  (r.sku, r.warehouse_id, r.bin_name)

/-- Translation of the upsert `processBatches` performs (the client
upsert, PostgREST merge-duplicates): on conflict every payload column is
replaced — quantity and bin_id unconditionally (the key columns are
equal on conflict) — and the row is inserted otherwise. This is the
conflict resolution of every record the pipeline writes. -/
def upsertPosition (db : List InventoryRecord) (r : InventoryRecord) : List InventoryRecord :=
  if db.any (fun p => p.key == r.key) then
    db.map (fun p =>
      if p.key == r.key then
        { p with quantity := r.quantity, bin_id := r.bin_id }
      else p)
  else db ++ [r]

/-- Translation of the per-row conflict resolution of the migration
helper `bulk_upsert_inventory_positions` (00001_initial_schema.sql lines
269-304): quantity replaced, bin_id coalesced
(`COALESCE(EXCLUDED.bin_id, old)`). The deployed pipeline never calls
this helper; it is kept to compare the two resolutions. -/
def upsertPositionCoalesce (db : List InventoryRecord) (r : InventoryRecord) :
    List InventoryRecord :=
  if db.any (fun p => p.key == r.key) then
    db.map (fun p =>
      if p.key == r.key then
        { p with quantity := r.quantity,
                 bin_id := match r.bin_id with
                           | some b => some b
                           | none => p.bin_id }
      else p)
  else db ++ [r]

/-- One batch's rows written in order through the client upsert (the
loop body of `processBatches`). -/
def bulkUpsert (db : List InventoryRecord) (rs : List InventoryRecord) : List InventoryRecord :=
  rs.foldl upsertPosition db

/-- Row of the table at a composite key. -/
def lookupPosition (db : List InventoryRecord) (k : List Nat × Int × List Nat) :
    Option InventoryRecord :=
  db.find? (fun p => p.key == k)

/-! ## processBatches -/

/-- Batch size constant (process-snapshot/index.ts line 69). -/
def BATCH_SIZE : Nat := 1000

/-- Fuel-driven slicing helper; fuel at least the list length is enough
(the slice step drops at least one element per iteration). -/
def chunksAux (fuel : Nat) (l : List α) : List (List α) :=
  match fuel with
  | 0 => if l.isEmpty then [] else [l]
  | fuel + 1 =>
      if l.isEmpty then []
      else l.take BATCH_SIZE :: chunksAux fuel (l.drop BATCH_SIZE)

/-- The batches `records.slice(i, i + BATCH_SIZE)` of the loop in
`processBatches` (line 259-260), in order. -/
def chunks (l : List α) : List (List α) := chunksAux l.length l

/-- Outcome of one batch's upsert call: the supabase client returns an
error object, or the call throws, or it succeeds. The outcome is the
loop's environment, indexed by the 1-based batch number. -/
inductive BatchOutcome where
  | ok : BatchOutcome
  | dbError : List Nat → BatchOutcome
  | thrown : List Nat → BatchOutcome

/-- Whether a batch outcome is a success. -/
def BatchOutcome.isOk : BatchOutcome → Bool
  | BatchOutcome.ok => true
  | _ => false

/-- The error message recorded for a failed batch (lines 283 and 291):
"Batch N failed: msg" and "Batch N exception: msg". -/
def batchErrMsg (batchNum : Nat) (o : BatchOutcome) : Option (List Nat) :=
  match o with
  | BatchOutcome.ok => none
  | BatchOutcome.dbError m =>
      some (batchWordBytes ++ natDecBytes batchNum ++ failedSepBytes ++ m)
  | BatchOutcome.thrown m =>
      some (batchWordBytes ++ natDecBytes batchNum ++ exceptionSepBytes ++ m)

/-- The loop of `processBatches` (lines 259-295): each batch is tried in
order; a failure records its error and does not stop the loop; a success
commits its rows (each batch is its own transaction) and increments
`batchesProcessed`. Returns (batchesProcessed, errors, final table). -/
def runBatches (outcome : Nat → BatchOutcome) :
    List (List InventoryRecord) → Nat → List InventoryRecord →
    Nat × List (List Nat) × List InventoryRecord
  | [], _, db => (0, [], db)
  | b :: rest, batchNum, db =>
      match outcome batchNum with
      | BatchOutcome.ok =>
          let r := runBatches outcome rest (batchNum + 1) (bulkUpsert db b)
          (r.1 + 1, r.2.1, r.2.2)
      | BatchOutcome.dbError m =>
          let r := runBatches outcome rest (batchNum + 1) db
          (r.1, (batchWordBytes ++ natDecBytes batchNum ++ failedSepBytes ++ m) :: r.2.1, r.2.2)
      | BatchOutcome.thrown m =>
          let r := runBatches outcome rest (batchNum + 1) db
          (r.1, (batchWordBytes ++ natDecBytes batchNum ++ exceptionSepBytes ++ m) :: r.2.1, r.2.2)

/-- Result of `processBatches` together with the resulting table. -/
structure BatchRunResult where
  success : Bool
  batchesProcessed : Nat
  errors : List (List Nat)
  db : List InventoryRecord
deriving DecidableEq

/-- Translation of `processBatches` (lines 250-302): slice the record
list into fixed-size batches, run them all, succeed exactly when no
error was recorded. -/
def processBatches (db : List InventoryRecord) (records : List InventoryRecord)
    (outcome : Nat → BatchOutcome) : BatchRunResult :=
  let r := runBatches outcome (chunks records) 1 db
  { success := r.2.1.isEmpty, batchesProcessed := r.1, errors := r.2.1, db := r.2.2 }

/-! ## The Job Coordinator (sync_jobs rows) -/

/-- The sync_job_status enum (migration 00003). -/
inductive JobStatus where
  | pending : JobStatus
  | processing : JobStatus
  | completed : JobStatus
  | failed : JobStatus
  | cancelled : JobStatus
deriving DecidableEq

/-- One sync_jobs row; timestamps are natural numbers (milliseconds). -/
structure SyncJob where
  id : Nat
  snapshot_id : List Nat
  warehouse_id : Option Int
  status : JobStatus
  created_at : Nat
  started_at : Option Nat
  completed_at : Option Nat
  updated_at : Option Nat
  total_items : Option Nat
  processed_items : Option Nat
  error_message : Option (List Nat)
deriving DecidableEq

/-- Translation of `updateSyncJobStatus` (process-snapshot/index.ts lines
398-439): the row with the given id receives the new status
unconditionally; `started_at` is assigned the current time whenever the
new status is processing; `completed_at` whenever it is completed or
failed; items fields only when provided; `error_message` only when
provided and nonempty (the source's truthiness test). -/
def updateSyncJobStatus (store : List SyncJob) (jobId : Nat) (status : JobStatus)
    (now : Nat) (totalItems processedItems : Option Nat)
    (errorMessage : Option (List Nat)) : List SyncJob :=
  store.map (fun j =>
    if j.id == jobId then
      { j with
        status := status,
        updated_at := some now,
        started_at := if status == JobStatus.processing then some now else j.started_at,
        completed_at :=
          if status == JobStatus.completed || status == JobStatus.failed then some now
          else j.completed_at,
        total_items := match totalItems with
                       | some t => some t
                       | none => j.total_items,
        processed_items := match processedItems with
                           | some p => some p
                           | none => j.processed_items,
        error_message := match errorMessage with
                         | some m => if m.isEmpty then j.error_message else some m
                         | none => j.error_message }
    else j)

/-- Translation of the ingest entry point's first step (lines 512-515):
when a job id is supplied, the job is set to processing before anything
else, with no precondition on its current status. -/
def ingestStartStep (store : List SyncJob) (jobId : Nat) (now : Nat) : List SyncJob :=
  updateSyncJobStatus store jobId JobStatus.processing now none none none

/-- Row of the job store at an id. -/
def findJob (store : List SyncJob) (jobId : Nat) : Option SyncJob :=
  store.find? (fun j => j.id == jobId)

/-- Modelled from the spec (§4.1): the transitions of the job state
machine, staying put allowed. -/
def allowedTransition (s t : JobStatus) : Bool :=
  (s == t) ||
  (match s, t with
   | JobStatus.pending, JobStatus.processing => true
   | JobStatus.pending, JobStatus.failed => true
   | JobStatus.pending, JobStatus.cancelled => true
   | JobStatus.processing, JobStatus.completed => true
   | JobStatus.processing, JobStatus.failed => true
   | JobStatus.processing, JobStatus.cancelled => true
   | _, _ => false)

/-- Modelled from the spec (§4.1): terminal statuses. -/
def isTerminal : JobStatus → Bool
  | JobStatus.completed => true
  | JobStatus.failed => true
  | JobStatus.cancelled => true
  | _ => false

/-! ## The Status Poller (check-snapshot per-job handler) -/

/-- Staleness threshold in hours (check-snapshot line 14). -/
def STALE_JOB_HOURS : Nat := 2

/-- Translation of `isJobStale` (check-snapshot lines 70-75), times in
milliseconds: `diffHours > 2` is `diffMs > 7200000`. A creation time in
the future clamps to a zero difference in `Nat` and is not stale, as in
the source. -/
def isJobStale (createdAt now : Nat) : Bool :=
  decide (STALE_JOB_HOURS * 3600000 < now - createdAt)

/-- ASCII lower-casing of one byte (`toLowerCase` on ASCII text). -/
def asciiLower (c : Nat) : Nat := if 65 ≤ c && c ≤ 90 then c + 32 else c

/-- ASCII lower-casing of a byte string. -/
def lowerBytes (s : List Nat) : List Nat := s.map asciiLower

/-- The JavaScript `hay.includes(needle)` substring test. -/
def bytesContain (hay needle : List Nat) : Bool :=
  (List.range (hay.length + 1)).any (fun i => (hay.drop i).take needle.length == needle)

/-- Outcome of the upstream status query for one job: the fetch or JSON
parse throws (caught by the per-job catch), the response is non-ok, the
GraphQL body carries errors, or a snapshot payload is returned. -/
inductive UpstreamCheck where
  | thrown : List Nat → UpstreamCheck
  | httpError : Nat → List Nat → UpstreamCheck
  | gqlErrors : List (List Nat) → UpstreamCheck
  | ok : List Nat → Option (List Nat) → Option (List Nat) → UpstreamCheck

/-- Outcome of a nested process-snapshot invocation. -/
inductive ProcessCall where
  | ok : ProcessCall
  | httpFail : Nat → ProcessCall
  | thrown : List Nat → ProcessCall

/-- One entry of the poll response's `jobs` array (check-snapshot lines
59-67). -/
structure PollJobResult where
  snapshot_id : List Nat
  status : List Nat
  snapshot_url : Option (List Nat)
  processing_triggered : Bool
  marked_stale : Bool
  error : Option (List Nat)
deriving DecidableEq

/-- A row forced to failed with a message and completion time (the
`update({status: "failed", ...})` calls of the poll loop). -/
def markJobFailed (j : SyncJob) (msg : List Nat) (now : Nat) : SyncJob :=
  { j with status := JobStatus.failed, error_message := some msg,
           completed_at := some now }

/-- The truthiness of `snapshot.error || undefined` for the result entry. -/
def truthyOpt (v : Option (List Nat)) : Option (List Nat) :=
  match v with
  | some m => if m.isEmpty then none else some m
  | none => none

/-- Translation of the per-job body of the check-snapshot poll loop
(lines 134-412). The upstream query outcome and the nested
process-snapshot call are the environment; the function returns the
job's row as the loop leaves it in the store, and the per-job result
entry. Branches in source order: staleness first; a thrown per-job error
is caught and leaves the row untouched; a non-ok HTTP response marks the
job failed; GraphQL errors mark it failed only for not-found wording; a
complete status with a URL triggers (or after five minutes re-triggers)
processing; an error/failed/aborted status marks the job failed;
anything else leaves the row untouched. -/
def checkJob (j : SyncJob) (now : Nat) (check : UpstreamCheck) (pcall : ProcessCall) :
    SyncJob × PollJobResult :=
  if isJobStale j.created_at now then
    (markJobFailed j staleTimeoutMsgBytes now,
     { snapshot_id := j.snapshot_id, status := failedBytes, snapshot_url := none,
       processing_triggered := false, marked_stale := true,
       error := some timedOutShortBytes })
  else
    match check with
    | UpstreamCheck.thrown msg =>
        (j, { snapshot_id := j.snapshot_id, status := errorBytes, snapshot_url := none,
              processing_triggered := false, marked_stale := false, error := some msg })
    | UpstreamCheck.httpError code _ =>
        (markJobFailed j (apiErrorMsgBytes ++ natDecBytes code) now,
         { snapshot_id := j.snapshot_id, status := errorBytes, snapshot_url := none,
           processing_triggered := false, marked_stale := false,
           error := some (apiErrorShortBytes ++ natDecBytes code) })
    | UpstreamCheck.gqlErrors msgs =>
        let notFound := msgs.any (fun m =>
          bytesContain (lowerBytes m) notFoundBytes ||
          bytesContain (lowerBytes m) doesNotExistBytes)
        ((if notFound then markJobFailed j snapshotNotFoundMsgBytes now else j),
         { snapshot_id := j.snapshot_id, status := errorBytes, snapshot_url := none,
           processing_triggered := false, marked_stale := false,
           error := some (msgs.headD gqlErrorBytes) })
    | UpstreamCheck.ok status url err =>
        let statusLower := lowerBytes status
        let isComplete := bytesContain statusLower completeBytes ||
          bytesContain statusLower successBytes
        let entry := fun triggered =>
          { snapshot_id := j.snapshot_id, status := status, snapshot_url := url,
            processing_triggered := triggered, marked_stale := false,
            error := truthyOpt err : PollJobResult }
        if isComplete && url.isSome then
          if j.status == JobStatus.pending then
            let j1 := { j with status := JobStatus.processing, started_at := some now }
            match pcall with
            | ProcessCall.ok => (j1, entry true)
            | ProcessCall.httpFail code =>
                (markJobFailed j1 (failedTriggerMsgBytes ++ natDecBytes code) now,
                 entry false)
            | ProcessCall.thrown m =>
                (markJobFailed j1 (processingErrorMsgBytes ++ m) now, entry false)
          else
            let triggered :=
              match j.started_at with
              | some st =>
                  if 5 * 60000 < now - st then
                    match pcall with
                    | ProcessCall.ok => true
                    | _ => false
                  else false
              | none => false
            (j, entry triggered)
        else if bytesContain statusLower errorBytes ||
            bytesContain statusLower failedBytes ||
            bytesContain statusLower abortedBytes then
          (markJobFailed j
            (match err with
             | some m => if m.isEmpty then snapshotFailedMsgBytes else m
             | none => snapshotFailedMsgBytes) now,
           entry false)
        else (j, entry false)

/-- The poll loop over all active jobs: every job is visited and yields a
result entry; a per-job failure never removes later jobs from the cycle
(the source wraps each iteration in try/catch, which `checkJob`'s thrown
branch absorbs). -/
def pollCycle (entries : List (SyncJob × UpstreamCheck × ProcessCall)) (now : Nat) :
    List SyncJob × List PollJobResult :=
  let outs := entries.map (fun e => checkJob e.1 now e.2.1 e.2.2)
  (outs.map Prod.fst, outs.map Prod.snd)

/-! ## The Abort Coordinator (abort-snapshot handler) -/

/-- The request body of the abort endpoint. -/
structure AbortRequest where
  snapshot_id : Option (List Nat)
  reason : Option (List Nat)

/-- Outcome of the upstream abort mutation. -/
inductive UpstreamAbort where
  | httpError : Nat → List Nat → UpstreamAbort
  | gqlErrors : List (List Nat) → UpstreamAbort
  | ok : Option (List Nat) → UpstreamAbort

/-- The structured abort response: success flag, HTTP status and message
(abort-snapshot returns these on every path). -/
structure AbortResponse where
  success : Bool
  httpStatus : Nat
  message : List Nat
deriving DecidableEq

/-- The defined "nothing pending" result of the abort endpoint
(abort-snapshot lines 64-69): a structured response, no exception. -/
def noPendingResponse : AbortResponse :=
  { success := false, httpStatus := 404, message := noPendingMsgBytes }

/-- The most recently created job still pending (order by created_at
descending, limit 1). -/
def latestPendingJob (store : List SyncJob) : Option SyncJob :=
  (store.filter (fun j => j.status == JobStatus.pending)).foldl
    (fun acc j =>
      match acc with
      | none => some j
      | some k => if k.created_at < j.created_at then some j else some k)
    none

/-- Rows with the given snapshot id marked cancelled with a message (the
`update({status: "cancelled", ...}).eq("snapshot_id", ...)` calls). -/
def cancelJobs (store : List SyncJob) (sid : List Nat) (msg : List Nat) (now : Nat) :
    List SyncJob :=
  store.map (fun j =>
    if j.snapshot_id == sid then
      { j with status := JobStatus.cancelled, error_message := some msg,
               completed_at := some now }
    else j)

/-- Translation of the abort-snapshot handler (abort-snapshot/index.ts):
resolve the target snapshot id (the request's, else the latest pending
job's), return the "nothing pending" result when none is found; then,
with credentials, call upstream: a non-ok response or a non-"already
processing" GraphQL error propagates without touching the store; an
"already"/"process"/"cannot abort" error soft-cancels locally; a clean
response cancels locally with the reason. -/
def abortHandler (store : List SyncJob) (req : AbortRequest)
    (creds : Option (List Nat)) (upstream : UpstreamAbort) (now : Nat) :
    AbortResponse × List SyncJob :=
  let reason :=
    match req.reason with
    | some r => if r.isEmpty then cancelledByUserBytes else r
    | none => cancelledByUserBytes
  let sidReq :=
    match req.snapshot_id with
    | some s => if s.isEmpty then none else some s
    | none => none
  let sid :=
    match sidReq with
    | some s => some s
    | none => (latestPendingJob store).map SyncJob.snapshot_id
  match sid with
  | none => (noPendingResponse, store)
  | some s =>
      if s.isEmpty then (noPendingResponse, store)
      else
        match creds with
        | none => ({ success := false, httpStatus := 401, message := noCredsMsgBytes }, store)
        | some tok =>
            if tok.isEmpty then
              ({ success := false, httpStatus := 401, message := noCredsMsgBytes }, store)
            else
              match upstream with
              | UpstreamAbort.httpError code _ =>
                  ({ success := false, httpStatus := code,
                     message := apiErrorMsgBytes ++ natDecBytes code }, store)
              | UpstreamAbort.gqlErrors msgs =>
                  let errorMessage := msgs.headD gqlErrorBytes
                  let lower := lowerBytes errorMessage
                  let isAlreadyProcessing := bytesContain lower alreadyBytes ||
                    bytesContain lower processWordBytes ||
                    bytesContain lower cannotAbortBytes
                  if isAlreadyProcessing then
                    ({ success := true, httpStatus := 200, message := softCancelMsgBytes },
                     cancelJobs store s
                       (shipheroStemBytes ++ errorMessage ++ markedLocallyBytes) now)
                  else
                    ({ success := false, httpStatus := 400, message := errorMessage }, store)
              | UpstreamAbort.ok _ =>
                  ({ success := true, httpStatus := 200, message := abortOkMsgBytes },
                   cancelJobs store s reason now)


/-! ## Sample rows (inputs of the concrete theorems) -/

/-- A sample sync_jobs row with a given status (id 1, snapshot id the
byte string "s1", created at time 0). -/
def sampleJob (st : JobStatus) : SyncJob :=
  { id := 1, snapshot_id := [115, 49], warehouse_id := some 1, status := st,
    created_at := 0, started_at := none, completed_at := none, updated_at := none,
    total_items := none, processed_items := none, error_message := none }

/-- A sample inventory record with an empty key. -/
def sampleRecord : InventoryRecord :=
  { sku := [], warehouse_id := 0, bin_name := [], bin_id := none, quantity := 1 }

/-- A record list long enough for two batches (1001 copies). -/
def sampleRecords1001 : List InventoryRecord := List.replicate 1001 sampleRecord

/-- A batch environment in which every batch's upsert reports an error. -/
def allFailOutcome : Nat → BatchOutcome := fun _ => BatchOutcome.dbError []

/-- A sample bin payload: name "A-01", quantity 5. -/
def sampleBin : Json :=
  Json.obj [(nameKey, Json.str [65, 45, 48, 49]), (quantityKey, Json.num 5)]

/-- A sample warehouse entry value holding one bin under the plain-text
key "Bin:10". -/
def sampleWh : Json :=
  Json.obj [(itemBinsKey, Json.obj [([66, 105, 110, 58, 49, 48], sampleBin)])]

/-- A sample products map: one SKU "SKU1" with one warehouse entry under
the plain-text key "Warehouse:1". -/
def sampleProducts : List (List Nat × Json) :=
  [([83, 75, 85, 49],
    Json.obj [(warehouseProductsKey,
      Json.obj [([87, 97, 114, 101, 104, 111, 117, 115, 101, 58, 49], sampleWh)])])]

/-- The scenario-1 snapshot document in the new (wrapped) format. -/
def sampleSnapshot : Json := Json.obj [(productsKey, Json.obj sampleProducts)]

/-- A stored sample position with a known bin id 7. -/
def samplePos : InventoryRecord :=
  { sku := [83], warehouse_id := 1, bin_name := [66], bin_id := some 7, quantity := 2 }

/-- An incoming sample record at the same key with a null bin id. -/
def sampleUpd : InventoryRecord :=
  { sku := [83], warehouse_id := 1, bin_name := [66], bin_id := none, quantity := 5 }

/-! ## Theorems -/


theorem decodeGroups_encodeGroups : ∀ l : List Nat, (∀ x ∈ l, x < 256) →
    decodeGroups (encodeGroups l) = l := by
  intro l
  induction l using encodeGroups.induct with
  | case1 a b c rest ih =>
    intro h
    have ha : a < 256 := h a (by simp)
    have hb : b < 256 := h b (by simp)
    have hc : c < 256 := h c (by simp)
    simp only [encodeGroups, decodeGroups]
    rw [ih (fun x hx => h x (by simp [hx]))]
    simp only [List.cons.injEq, and_true]
    omega
  | case2 a b =>
    intro h
    have ha : a < 256 := h a (by simp)
    have hb : b < 256 := h b (by simp)
    simp only [encodeGroups, decodeGroups, List.cons.injEq, and_true]
    omega
  | case3 a =>
    intro h
    have ha : a < 256 := h a (by simp)
    simp only [encodeGroups, decodeGroups, List.cons.injEq, and_true]
    omega
  | case4 => intro h; rfl

theorem encodeGroups_lt64 : ∀ l : List Nat, (∀ x ∈ l, x < 256) →
    ∀ y ∈ encodeGroups l, y < 64 := by
  intro l
  induction l using encodeGroups.induct with
  | case1 a b c rest ih =>
    intro h y hy
    have ha : a < 256 := h a (by simp)
    have hb : b < 256 := h b (by simp)
    have hc : c < 256 := h c (by simp)
    simp only [encodeGroups, List.mem_cons] at hy
    rcases hy with rfl | rfl | rfl | rfl | hy
    · omega
    · omega
    · omega
    · omega
    · exact ih (fun x hx => h x (by simp [hx])) y hy
  | case2 a b =>
    intro h y hy
    have ha : a < 256 := h a (by simp)
    have hb : b < 256 := h b (by simp)
    simp only [encodeGroups, List.mem_cons, List.not_mem_nil, or_false] at hy
    rcases hy with rfl | rfl | rfl <;> omega
  | case3 a =>
    intro h y hy
    have ha : a < 256 := h a (by simp)
    simp only [encodeGroups, List.mem_cons, List.not_mem_nil, or_false] at hy
    rcases hy with rfl | rfl <;> omega
  | case4 => intro h y hy; simp [encodeGroups] at hy

theorem charToSextet_sextetToChar : ∀ x, x < 64 → charToSextet (sextetToChar x) = some x := by
  decide

theorem sextetToChar_not_ws : ∀ x, x < 64 → isAsciiWs (sextetToChar x) = false := by decide

theorem sextetToChar_ne_61 : ∀ x, x < 64 → sextetToChar x ≠ 61 := by decide

theorem encodeGroups_length_mod : ∀ l : List Nat,
    (l.length % 3 = 0 → (encodeGroups l).length % 4 = 0) ∧
    (l.length % 3 = 1 → (encodeGroups l).length % 4 = 2) ∧
    (l.length % 3 = 2 → (encodeGroups l).length % 4 = 3) := by
  intro l
  induction l using encodeGroups.induct with
  | case1 a b c rest ih =>
    simp only [encodeGroups, List.length_cons] at ih ⊢
    omega
  | case2 a b => simp [encodeGroups]
  | case3 a => simp [encodeGroups]
  | case4 => simp [encodeGroups]

theorem mapOpt_map_of (f : β → Option α) (g : α → β) :
    ∀ l : List α, (∀ a ∈ l, f (g a) = some a) → mapOpt f (l.map g) = some l := by
  intro l
  induction l with
  | nil => intro h; rfl
  | cons a t ih =>
    intro h
    simp only [List.map_cons, mapOpt]
    rw [h a (by simp), ih (fun x hx => h x (by simp [hx]))]

theorem dropPad_spec (base : List Nat) (hb : ∀ c ∈ base, c ≠ 61) :
    dropPad base = base ∧ dropPad (base ++ [61]) = base ∧
    dropPad (base ++ [61, 61]) = base := by
  have hlast : (base.getLast? == some 61) = false := by
    rw [beq_eq_false_iff_ne]
    intro h
    obtain ⟨hne, heq⟩ := List.mem_getLast?_eq_getLast (Option.mem_def.mpr h)
    exact hb 61 (heq ▸ List.getLast_mem hne) rfl
  refine ⟨?_, ?_, ?_⟩
  · simp [dropPad, hlast]
  · simp [dropPad, List.getLast?_concat, List.dropLast_concat, hlast]
  · have : base ++ [61, 61] = (base ++ [61]) ++ [61] := by simp
    rw [this]
    simp [dropPad, List.getLast?_concat, List.dropLast_concat]


theorem atob_base64EncodeBytes (l : List Nat) (h : ∀ x ∈ l, x < 256) :
    atob (base64EncodeBytes l) = some l := by
  have hlt := encodeGroups_lt64 l h
  have hbase_ne61 : ∀ c ∈ (encodeGroups l).map sextetToChar, c ≠ 61 := by
    intro c hc
    obtain ⟨x, hx, rfl⟩ := List.mem_map.mp hc
    exact sextetToChar_ne_61 x (hlt x hx)
  have hbase_ws : ∀ c ∈ (encodeGroups l).map sextetToChar, (!(isAsciiWs c)) = true := by
    intro c hc
    obtain ⟨x, hx, rfl⟩ := List.mem_map.mp hc
    simp [sextetToChar_not_ws x (hlt x hx)]
  obtain ⟨hd0, hd1, hd2⟩ := dropPad_spec ((encodeGroups l).map sextetToChar) hbase_ne61
  have hmapOpt : mapOpt charToSextet ((encodeGroups l).map sextetToChar) = some (encodeGroups l) :=
    mapOpt_map_of _ _ _ (fun x hx => charToSextet_sextetToChar x (hlt x hx))
  obtain ⟨hm0, hm1, hm2⟩ := encodeGroups_length_mod l
  have hbl : ((encodeGroups l).map sextetToChar).length = (encodeGroups l).length :=
    List.length_map _ _
  have hr : l.length % 3 = 0 ∨ l.length % 3 = 1 ∨ l.length % 3 = 2 := by omega
  rcases hr with hr | hr | hr
  · have hm := hm0 hr
    have henc : base64EncodeBytes l = (encodeGroups l).map sextetToChar := by
      simp [base64EncodeBytes, hr]
    rw [henc]
    unfold atob
    rw [List.filter_eq_self.mpr hbase_ws]
    simp only []
    rw [show (((encodeGroups l).map sextetToChar).length % 4 == 0) = true by simp [hbl, hm]]
    simp only [if_true]
    rw [hd0]
    rw [show (((encodeGroups l).map sextetToChar).length % 4 == 1) = false by simp [hbl, hm]]
    simp only [Bool.false_eq_true, if_false]
    rw [hmapOpt]
    simp [decodeGroups_encodeGroups l h]
  · have hm := hm1 hr
    have henc : base64EncodeBytes l = (encodeGroups l).map sextetToChar ++ [61, 61] := by
      simp [base64EncodeBytes, hr]
    rw [henc]
    unfold atob
    rw [List.filter_eq_self.mpr (by
      intro c hc
      rcases List.mem_append.mp hc with hc | hc
      · exact hbase_ws c hc
      · simp only [List.mem_cons, List.not_mem_nil, or_false] at hc
        rcases hc with rfl | rfl <;> rfl)]
    simp only []
    have e1 : ((((encodeGroups l).map sextetToChar ++ [61, 61]).length % 4 == 0)) = true := by
      simp only [List.length_append, List.length_map, List.length_cons, List.length_nil,
        beq_iff_eq]
      omega
    rw [e1]
    simp only [if_true]
    rw [hd2]
    rw [show (((encodeGroups l).map sextetToChar).length % 4 == 1) = false by simp [hbl, hm]]
    simp only [Bool.false_eq_true, if_false]
    rw [hmapOpt]
    simp [decodeGroups_encodeGroups l h]
  · have hm := hm2 hr
    have henc : base64EncodeBytes l = (encodeGroups l).map sextetToChar ++ [61] := by
      simp [base64EncodeBytes, hr]
    rw [henc]
    unfold atob
    rw [List.filter_eq_self.mpr (by
      intro c hc
      rcases List.mem_append.mp hc with hc | hc
      · exact hbase_ws c hc
      · simp only [List.mem_cons, List.not_mem_nil, or_false] at hc
        rcases hc with rfl; rfl)]
    simp only []
    have e1 : ((((encodeGroups l).map sextetToChar ++ [61]).length % 4 == 0)) = true := by
      simp only [List.length_append, List.length_map, List.length_cons, List.length_nil,
        beq_iff_eq]
      omega
    rw [e1]
    simp only [if_true]
    rw [hd1]
    rw [show (((encodeGroups l).map sextetToChar).length % 4 == 1) = false by simp [hbl, hm]]
    simp only [Bool.false_eq_true, if_false]
    rw [hmapOpt]
    simp [decodeGroups_encodeGroups l h]


theorem natDecAux_fuel : ∀ f g n, n ≤ f → n ≤ g → natDecAux f n = natDecAux g n := by
  intro f
  induction f with
  | zero =>
    intro g n hf hg
    have : n = 0 := by omega
    subst this
    cases g with
    | zero => rfl
    | succ g => simp [natDecAux]
  | succ f ih =>
    intro g n hf hg
    cases g with
    | zero =>
      have : n = 0 := by omega
      subst this
      simp [natDecAux]
    | succ g =>
      by_cases h10 : n < 10
      · simp [natDecAux, h10]
      · simp only [natDecAux, h10, if_false]
        rw [ih g (n / 10) (by omega) (by omega)]

theorem natDecBytes_eq (n : Nat) :
    natDecBytes n = if n < 10 then [48 + n] else natDecBytes (n / 10) ++ [48 + n % 10] := by
  unfold natDecBytes
  by_cases h10 : n < 10
  · cases n with
    | zero => simp [natDecAux]
    | succ m => simp [natDecAux, h10]
  · have : ∃ m, n = m + 1 := ⟨n - 1, by omega⟩
    obtain ⟨m, rfl⟩ := this
    simp only [natDecAux, h10, if_false]
    rw [natDecAux_fuel m ((m + 1) / 10) ((m + 1) / 10) (by omega) (by omega)]

theorem natDecBytes_digits (n : Nat) : ∀ c ∈ natDecBytes n, 48 ≤ c ∧ c ≤ 57 := by
  induction n using Nat.strong_induction_on with
  | _ n ih =>
    rw [natDecBytes_eq]
    by_cases h10 : n < 10
    · simp only [h10, if_true]
      intro c hc
      simp only [List.mem_cons, List.not_mem_nil, or_false] at hc
      omega
    · simp only [h10, if_false]
      intro c hc
      rcases List.mem_append.mp hc with hc | hc
      · exact ih (n / 10) (by omega) c hc
      · simp only [List.mem_cons, List.not_mem_nil, or_false] at hc
        omega

theorem natDecBytes_ne_nil (n : Nat) : natDecBytes n ≠ [] := by
  rw [natDecBytes_eq]
  by_cases h10 : n < 10 <;> simp [h10]

theorem natDecBytes_foldl (n : Nat) : ∀ a : Nat,
    (natDecBytes n).foldl (fun acc c => acc * 10 + (c - 48)) a =
      a * 10 ^ (natDecBytes n).length + n := by
  induction n using Nat.strong_induction_on with
  | _ n ih =>
    intro a
    rw [natDecBytes_eq]
    by_cases h10 : n < 10
    · simp only [h10, if_true, List.foldl_cons, List.foldl_nil, List.length_cons,
        List.length_nil, pow_one, zero_add]
      omega
    · simp only [h10, if_false, List.foldl_append, List.foldl_cons, List.foldl_nil,
        List.length_append, List.length_cons, List.length_nil, zero_add]
      rw [ih (n / 10) (by omega) a]
      have hd : 48 + n % 10 - 48 = n % 10 := by omega
      rw [hd, pow_succ]
      have : (a * 10 ^ (natDecBytes (n / 10)).length + n / 10) * 10 + n % 10 =
          a * (10 ^ (natDecBytes (n / 10)).length * 10) + (n / 10 * 10 + n % 10) := by ring
      rw [this]
      omega



theorem dropWhile_eq_self_of (p : Nat → Bool) :
    ∀ l : List Nat, (∀ c ∈ l, p c = false) → l.dropWhile p = l := by
  intro l h
  cases l with
  | nil => rfl
  | cons c t => simp [List.dropWhile_cons, h c (by simp)]

theorem takeWhile_eq_self_of (p : Nat → Bool) :
    ∀ l : List Nat, (∀ c ∈ l, p c = true) → l.takeWhile p = l := by
  intro l
  induction l with
  | nil => intro h; rfl
  | cons c t ih =>
    intro h
    simp [List.takeWhile_cons, h c (by simp), ih (fun x hx => h x (by simp [hx]))]

theorem parseIntDec_natDecBytes (n : Nat) : parseIntDec (natDecBytes n) = some (n : Int) := by
  have hdig := natDecBytes_digits n
  have hnn := natDecBytes_ne_nil n
  have hdw : (natDecBytes n).dropWhile isJsWs = natDecBytes n := by
    apply dropWhile_eq_self_of
    intro c hc
    have := hdig c hc
    simp only [isJsWs]
    simp only [Bool.or_eq_false_iff, beq_eq_false_iff_ne]
    omega
  have hpd : parseDigits (natDecBytes n) = some n := by
    unfold parseDigits
    rw [takeWhile_eq_self_of _ _ (fun c hc => by
      have := hdig c hc
      simp only [isDigit, Bool.and_eq_true, decide_eq_true_eq]
      omega)]
    simp only [List.isEmpty_eq_true, hnn, if_false]
    have := natDecBytes_foldl n 0
    simp only [zero_mul, zero_add] at this
    rw [this]
  unfold parseIntDec
  rw [hdw]
  obtain ⟨c, rest, hcr⟩ : ∃ c rest, natDecBytes n = c :: rest := by
    cases h : natDecBytes n with
    | nil => exact absurd h hnn
    | cons c rest => exact ⟨c, rest, rfl⟩
  rw [hcr]
  simp only []
  have hc48 : 48 ≤ c ∧ c ≤ 57 := hdig c (by rw [hcr]; simp)
  rw [show (c == 43) = false by simp only [beq_eq_false_iff_ne]; omega]
  rw [show (c == 45) = false by simp only [beq_eq_false_iff_ne]; omega]
  simp only [Bool.false_eq_true, if_false]
  rw [← hcr, hpd]
  rfl


theorem splitOnByte_ne_nil (sep : Nat) : ∀ l, splitOnByte sep l ≠ [] := by
  intro l
  cases l with
  | nil => simp [splitOnByte]
  | cons c t =>
    simp only [splitOnByte]
    cases splitOnByte sep t with
    | nil => simp
    | cons cur groups =>
      by_cases h : (c == sep) = true <;> simp [h]

theorem splitOnByte_no_sep (sep : Nat) :
    ∀ l, (∀ c ∈ l, (c == sep) = false) → splitOnByte sep l = [l] := by
  intro l
  induction l with
  | nil => intro h; rfl
  | cons c t ih =>
    intro h
    simp only [splitOnByte]
    rw [ih (fun x hx => h x (by simp [hx]))]
    simp [h c (by simp)]

theorem splitOnByte_append (sep : Nat) :
    ∀ pre post, (∀ c ∈ pre, (c == sep) = false) →
      splitOnByte sep (pre ++ sep :: post) = pre :: splitOnByte sep post := by
  intro pre
  induction pre with
  | nil =>
    intro post h
    simp only [List.nil_append, splitOnByte]
    cases hsp : splitOnByte sep post with
    | nil => exact absurd hsp (splitOnByte_ne_nil sep post)
    | cons cur groups => simp
  | cons p pre' ih =>
    intro post h
    simp only [List.cons_append, splitOnByte, List.append_eq]
    rw [ih post (fun x hx => h x (by simp [hx]))]
    simp [h p (by simp)]

/-- Claim C6 (confirmed). Codec round-trip: for every numeric warehouse id
n, decoding the encoded identifier yields n back:
`decodeShipHeroId (encodeWarehouseId n) = some n`, where the encoder is
base64 of "Warehouse:" followed by the decimal id and the decoder
base64-decodes and parses the segment after the last colon. -/
theorem decodeShipHeroId_encodeWarehouseId (n : Nat) :
    decodeShipHeroId (encodeWarehouseId n) = some (n : Int) := by
  have htag : ∀ x ∈ warehouseTagBytes, x < 256 := by decide
  have hbytes : ∀ x ∈ warehouseTagBytes ++ 58 :: natDecBytes n, x < 256 := by
    intro x hx
    rcases List.mem_append.mp hx with hx | hx
    · exact htag x hx
    · simp only [List.mem_cons] at hx
      rcases hx with rfl | hx
      · omega
      · have := natDecBytes_digits n x hx
        omega
  unfold decodeShipHeroId encodeWarehouseId
  rw [base64Decode, atob_base64EncodeBytes _ hbytes]
  simp only [Option.getD_some]
  rw [splitOnByte_append 58 warehouseTagBytes (natDecBytes n) (by decide)]
  rw [splitOnByte_no_sep 58 (natDecBytes n) (fun c hc => by
    have := natDecBytes_digits n c hc
    simp only [beq_eq_false_iff_ne]
    omega)]
  simp only [List.length_cons, List.length_singleton]
  rw [if_pos (by omega)]
  simp only [List.getLastD]
  exact parseIntDec_natDecBytes n


theorem splitOnByte_singleton (sep : Nat) : ∀ l p, splitOnByte sep l = [p] → p = l := by
  intro l
  induction l with
  | nil =>
    intro p hp
    simp only [splitOnByte, List.cons.injEq, and_true] at hp
    exact hp.symm
  | cons c t ih =>
    intro p hp
    rcases hq : splitOnByte sep t with _ | ⟨cur, groups⟩
    · exact absurd hq (splitOnByte_ne_nil sep t)
    · simp only [splitOnByte, hq] at hp
      by_cases hcs : (c == sep) = true
      · rw [if_pos hcs] at hp
        simp at hp
      · rw [if_neg hcs] at hp
        simp only [List.cons.injEq] at hp
        obtain ⟨hpc, hgr⟩ := hp
        subst hgr
        rw [← hpc, ih cur hq]

/-- Claim C10 (confirmed). Identifier decoding is total: `decodeShipHeroId`
is a total function returning a numeric id or null; when the input is not
valid base64 the raw string itself is used (the `base64Decode` fallback),
so the plain text "Warehouse:123" decodes to 123 exactly like its base64
encoding; and null is returned precisely when no integer parses from the
final colon-separated segment of the decoding. -/
theorem decodeShipHeroId_total_characterization :
    (∀ s, atob s = none → base64Decode s = s) ∧
    (decodeShipHeroId wh123PlainBytes = some 123 ∧
     decodeShipHeroId (encodeWarehouseId 123) = some 123) ∧
    (∀ s, decodeShipHeroId s = none ↔
       parseIntDec ((splitOnByte 58 (base64Decode s)).getLastD []) = none) := by
  refine ⟨?_, ⟨by decide, by decide⟩, ?_⟩
  · intro s h
    unfold base64Decode
    rw [h]
    rfl
  · intro s
    unfold decodeShipHeroId
    simp only []
    by_cases h2 : 2 ≤ (splitOnByte 58 (base64Decode s)).length
    · rw [if_pos h2]
    · rw [if_neg h2]
      have hne := splitOnByte_ne_nil 58 (base64Decode s)
      have h1 : (splitOnByte 58 (base64Decode s)).length = 1 := by
        have hz : (splitOnByte 58 (base64Decode s)).length ≠ 0 := by
          simpa [List.length_eq_zero] using hne
        omega
      obtain ⟨p, hp⟩ : ∃ p, splitOnByte 58 (base64Decode s) = [p] := by
        rcases hq : splitOnByte 58 (base64Decode s) with _ | ⟨a, t⟩
        · exact absurd hq hne
        · rw [hq] at h1
          simp only [List.length_cons] at h1
          have ht : t = [] := List.eq_nil_of_length_eq_zero (by omega)
          exact ⟨a, by rw [ht]⟩
      have hpd := splitOnByte_singleton 58 (base64Decode s) p hp
      rw [hp, hpd]
      simp

/-- Witness for C10: the fallback and the null-characterisation
instantiated at concrete inputs ("Warehouse:123" is not valid base64, so
its hypothesis holds there; the single byte 65 is the letter A). -/
theorem decodeShipHeroId_total_witness :
    base64Decode wh123PlainBytes = wh123PlainBytes ∧
    (decodeShipHeroId [65] = none ↔
      parseIntDec ((splitOnByte 58 (base64Decode [65])).getLastD []) = none) :=
  ⟨decodeShipHeroId_total_characterization.1 wh123PlainBytes (by decide),
   decodeShipHeroId_total_characterization.2.2 [65]⟩


theorem find?_map_ite {α : Type} (p : α → Bool) (f : α → α) (hp : ∀ a, p (f a) = p a) :
    ∀ l : List α,
      List.find? p (l.map (fun a => if p a then f a else a)) = (List.find? p l).map f := by
  intro l
  induction l with
  | nil => rfl
  | cons a t ih =>
    by_cases h : p a = true
    · simp only [List.map_cons, h, if_true, List.find?_cons]
      rw [hp a, h]
      simp [List.find?_cons_of_pos _ h]
    · have h' : p a = false := by simp only [Bool.not_eq_true] at h; exact h
      simp only [List.map_cons, h', Bool.false_eq_true, if_false]
      rw [List.find?_cons_of_neg _ (by simp [h']), List.find?_cons_of_neg _ (by simp [h'])]
      exact ih

/-- Supporting lemma for C1: the migration helper's own conflict
resolution (`upsertPositionCoalesce`, never called by the pipeline) does
implement the claimed behaviour — quantity replaced, a null bin_id never
overwriting a known non-null one — which is why the claim is taken as
the intent the pipeline's writer fails to meet. -/
theorem sql_upsert_coalesce (db : List InventoryRecord) (r p : InventoryRecord)
    (hp : lookupPosition db r.key = some p) :
    ∃ q, lookupPosition (upsertPositionCoalesce db r) r.key = some q ∧
      q.quantity = r.quantity ∧
      (∀ b, r.bin_id = some b → q.bin_id = some b) ∧
      (r.bin_id = none → q.bin_id = p.bin_id) := by
  unfold lookupPosition at hp
  have hmem : p ∈ db := List.mem_of_find?_eq_some hp
  have hkey' := List.find?_some hp
  have hkey : (p.key == r.key) = true := hkey'
  have hany : db.any (fun x => x.key == r.key) = true :=
    List.any_eq_true.mpr ⟨p, hmem, hkey⟩
  unfold upsertPositionCoalesce
  rw [if_pos hany]
  unfold lookupPosition
  rw [find?_map_ite (fun x => x.key == r.key)
        (fun x => { x with quantity := r.quantity,
                           bin_id := match r.bin_id with
                                     | some b => some b
                                     | none => x.bin_id })
        (fun a => rfl) db]
  rw [hp]
  refine ⟨_, rfl, rfl, ?_, ?_⟩
  · intro b hb
    simp [hb]
  · intro hb
    simp [hb]


theorem findJob_updateSyncJobStatus (store : List SyncJob) (jobId : Nat) (st : JobStatus)
    (now : Nat) (ti pi : Option Nat) (em : Option (List Nat)) :
    findJob (updateSyncJobStatus store jobId st now ti pi em) jobId =
      (findJob store jobId).map (fun j =>
        { j with
          status := st,
          updated_at := some now,
          started_at := if st == JobStatus.processing then some now else j.started_at,
          completed_at :=
            if st == JobStatus.completed || st == JobStatus.failed then some now
            else j.completed_at,
          total_items := match ti with
                         | some t => some t
                         | none => j.total_items,
          processed_items := match pi with
                             | some p => some p
                             | none => j.processed_items,
          error_message := match em with
                           | some m => if m.isEmpty then j.error_message else some m
                           | none => j.error_message }) := by
  unfold findJob updateSyncJobStatus
  induction store with
  | nil => rfl
  | cons a t ih =>
    simp only [List.map_cons, List.find?_cons]
    by_cases h : (a.id == jobId) = true
    · simp only [h, if_true]
      rfl
    · have h' : (a.id == jobId) = false := by
        simp only [Bool.not_eq_true] at h
        exact h
      simp only [h', Bool.false_eq_true, if_false]
      exact ih

/-- Claim C4 (corrected, amended form). The process-snapshot handler's
first step sets the referenced job's status to processing regardless of
its current status — including terminal statuses — so forward-only
transitions are not enforced by the code. -/
theorem ingest_sets_processing_unconditionally (store : List SyncJob) (jobId now : Nat)
    (j : SyncJob) (hj : findJob store jobId = some j) :
    ∃ j', findJob (ingestStartStep store jobId now) jobId = some j' ∧
      j'.status = JobStatus.processing ∧ j'.started_at = some now := by
  unfold ingestStartStep
  rw [findJob_updateSyncJobStatus, hj]
  exact ⟨_, rfl, rfl, rfl⟩

/-- Claim C1 (code_bug). At the failing input — a stored position with
bin_id 7 and an incoming record at the same composite key with a null
bin_id — the write the pipeline performs (the supabase merge upsert of
`processBatches`) erases the stored bin_id to null, while the claimed
(and the unused migration helper's) coalescing resolution keeps 7; the
quantity is replaced by both, as claimed. -/
theorem upsert_bin_id_overwritten :
    samplePos.bin_id = some 7 ∧ sampleUpd.bin_id = none ∧
    lookupPosition [samplePos] sampleUpd.key = some samplePos ∧
    (lookupPosition (upsertPosition [samplePos] sampleUpd) sampleUpd.key).map
      InventoryRecord.bin_id = some none ∧
    (lookupPosition (upsertPositionCoalesce [samplePos] sampleUpd) sampleUpd.key).map
      InventoryRecord.bin_id = some (some 7) ∧
    (lookupPosition (upsertPosition [samplePos] sampleUpd) sampleUpd.key).map
      InventoryRecord.quantity = some sampleUpd.quantity := by decide

/-- Counterexample to claim C4 as stated: invoking the ingest operation
on a job in the terminal status completed moves it back to processing,
which the forward-only state machine forbids. -/
theorem forward_only_counterexample :
    (findJob (ingestStartStep [sampleJob JobStatus.completed] 1 50) 1).map SyncJob.status =
      some JobStatus.processing ∧
    isTerminal JobStatus.completed = true ∧
    allowedTransition JobStatus.completed JobStatus.processing = false := by decide

/-- Witness for the amended C4 at a concrete store (a cancelled job). -/
theorem ingest_sets_processing_witness :
    findJob [sampleJob JobStatus.cancelled] 1 = some (sampleJob JobStatus.cancelled) ∧
    (∃ j', findJob (ingestStartStep [sampleJob JobStatus.cancelled] 1 7) 1 = some j' ∧
      j'.status = JobStatus.processing ∧ j'.started_at = some 7) :=
  ⟨by decide,
   ingest_sets_processing_unconditionally [sampleJob JobStatus.cancelled] 1 7
     (sampleJob JobStatus.cancelled) (by decide)⟩

/-- Claim C5 (corrected, amended form). `updateSyncJobStatus` writes
started_at to the current time on EVERY update whose status is
processing (including progress updates), and writes completed_at on
every update entering completed or failed; the other timestamp is left
unchanged by each kind of update. -/
theorem updateSyncJobStatus_timestamps (store : List SyncJob) (jobId now : Nat)
    (ti pi : Option Nat) (em : Option (List Nat)) (j : SyncJob)
    (hj : findJob store jobId = some j) :
    (∃ j', findJob (updateSyncJobStatus store jobId JobStatus.processing now ti pi em) jobId
        = some j' ∧ j'.started_at = some now ∧ j'.completed_at = j.completed_at) ∧
    (∀ st, st = JobStatus.completed ∨ st = JobStatus.failed →
       ∃ j', findJob (updateSyncJobStatus store jobId st now ti pi em) jobId = some j' ∧
         j'.completed_at = some now ∧ j'.started_at = j.started_at) := by
  constructor
  · rw [findJob_updateSyncJobStatus, hj]
    exact ⟨_, rfl, rfl, rfl⟩
  · intro st hst
    rcases hst with rfl | rfl <;>
      · rw [findJob_updateSyncJobStatus, hj]
        exact ⟨_, rfl, rfl, rfl⟩

/-- Counterexample to claim C5 as stated: a progress update on a job
already in processing (with started_at 3) rewrites started_at to the
current time 9, so started_at is not written exactly once. -/
theorem started_at_overwrite_counterexample :
    (findJob (updateSyncJobStatus
        [{ sampleJob JobStatus.processing with started_at := some 3 }]
        1 JobStatus.processing 9 (some 100) (some 10) none) 1).map SyncJob.started_at =
      some (some 9) ∧ (9 : Nat) ≠ 3 := by decide

/-- Witness for the amended C5 at a concrete store. -/
theorem updateSyncJobStatus_timestamps_witness :
    findJob [{ sampleJob JobStatus.processing with started_at := some 3 }] 1 =
      some { sampleJob JobStatus.processing with started_at := some 3 } ∧
    ((∃ j', findJob (updateSyncJobStatus
          [{ sampleJob JobStatus.processing with started_at := some 3 }]
          1 JobStatus.processing 9 (some 100) (some 10) none) 1 = some j' ∧
        j'.started_at = some 9 ∧
        j'.completed_at =
          ({ sampleJob JobStatus.processing with started_at := some 3 } : SyncJob).completed_at) ∧
     (∀ st, st = JobStatus.completed ∨ st = JobStatus.failed →
        ∃ j', findJob (updateSyncJobStatus
            [{ sampleJob JobStatus.processing with started_at := some 3 }]
            1 st 9 (some 100) (some 10) none) 1 = some j' ∧
          j'.completed_at = some 9 ∧
          j'.started_at =
            ({ sampleJob JobStatus.processing with started_at := some 3 } : SyncJob).started_at)) :=
  ⟨by decide,
   updateSyncJobStatus_timestamps
     [{ sampleJob JobStatus.processing with started_at := some 3 }] 1 9 (some 100) (some 10)
     none { sampleJob JobStatus.processing with started_at := some 3 } (by decide)⟩

/-- Claim C9 (confirmed). Abort with nothing pending: when no snapshot id
is supplied and no job is pending, the abort handler returns the defined
"nothing pending" result (the structured 404 response) and leaves every
job row unmodified. -/
theorem abort_nothing_pending (store : List SyncJob) (req : AbortRequest)
    (creds : Option (List Nat)) (upstream : UpstreamAbort) (now : Nat)
    (hsid : req.snapshot_id = none)
    (hnp : ∀ j ∈ store, j.status ≠ JobStatus.pending) :
    abortHandler store req creds upstream now = (noPendingResponse, store) := by
  have hf : store.filter (fun j => j.status == JobStatus.pending) = [] := by
    rw [List.filter_eq_nil_iff]
    intro j hj
    simp [hnp j hj]
  have hl : latestPendingJob store = none := by
    unfold latestPendingJob
    rw [hf]
    rfl
  unfold abortHandler
  rw [hsid, hl]
  rfl

/-- Witness for C9: a store holding only a completed job. -/
theorem abort_nothing_pending_witness :
    (⟨none, none⟩ : AbortRequest).snapshot_id = none ∧
    abortHandler [sampleJob JobStatus.completed] ⟨none, none⟩ none (UpstreamAbort.ok none) 0 =
      (noPendingResponse, [sampleJob JobStatus.completed]) :=
  ⟨rfl, abort_nothing_pending _ _ _ _ _ rfl (by decide)⟩


/-- Counterexample to claim C3 as stated: a non-stale job whose upstream
status query returns a non-ok HTTP response (status 500, not a
"not found"-class error) has its stored status changed to failed instead
of being left untouched. -/
theorem poll_http_error_counterexample :
    isJobStale (sampleJob JobStatus.pending).created_at 100 = false ∧
    (checkJob (sampleJob JobStatus.pending) 100 (UpstreamCheck.httpError 500 [])
        ProcessCall.ok).1.status = JobStatus.failed ∧
    JobStatus.failed ≠ (sampleJob JobStatus.pending).status := by decide

/-- Claim C3 (corrected, amended form). Per-job poll error handling:
every job of a poll cycle yields a result entry (no error aborts the
remaining jobs); a thrown per-job transport error leaves the row
untouched; a non-ok HTTP response marks the job failed unconditionally;
GraphQL errors mark the job failed exactly when some message contains
"not found" or "does not exist", and leave the row untouched otherwise. -/
theorem poll_error_classification :
    (∀ entries now, (pollCycle entries now).2.length = entries.length) ∧
    (∀ j now m pc, isJobStale j.created_at now = false →
       (checkJob j now (UpstreamCheck.thrown m) pc).1 = j) ∧
    (∀ j now code body pc, isJobStale j.created_at now = false →
       (checkJob j now (UpstreamCheck.httpError code body) pc).1 =
         markJobFailed j (apiErrorMsgBytes ++ natDecBytes code) now) ∧
    (∀ j now msgs pc, isJobStale j.created_at now = false →
       msgs.any (fun m => bytesContain (lowerBytes m) notFoundBytes ||
         bytesContain (lowerBytes m) doesNotExistBytes) = false →
       (checkJob j now (UpstreamCheck.gqlErrors msgs) pc).1 = j) ∧
    (∀ j now msgs pc, isJobStale j.created_at now = false →
       msgs.any (fun m => bytesContain (lowerBytes m) notFoundBytes ||
         bytesContain (lowerBytes m) doesNotExistBytes) = true →
       (checkJob j now (UpstreamCheck.gqlErrors msgs) pc).1 =
         markJobFailed j snapshotNotFoundMsgBytes now) := by
  refine ⟨?_, ?_, ?_, ?_, ?_⟩
  · intro entries now
    simp [pollCycle]
  · intro j now m pc hstale
    simp [checkJob, hstale]
  · intro j now code body pc hstale
    simp [checkJob, hstale]
  · intro j now msgs pc hstale hnf
    simp [checkJob, hstale, hnf]
  · intro j now msgs pc hstale hnf
    simp [checkJob, hstale, hnf]

/-- Witness for the amended C3, instantiating every part at concrete
non-stale jobs and outcomes. -/
theorem poll_error_classification_witness :
    (pollCycle [] 0).2.length = ([] : List (SyncJob × UpstreamCheck × ProcessCall)).length ∧
    (isJobStale (sampleJob JobStatus.pending).created_at 100 = false ∧
      (checkJob (sampleJob JobStatus.pending) 100 (UpstreamCheck.thrown [77]) ProcessCall.ok).1 =
        sampleJob JobStatus.pending) ∧
    (checkJob (sampleJob JobStatus.pending) 100 (UpstreamCheck.httpError 500 [])
        ProcessCall.ok).1 =
      markJobFailed (sampleJob JobStatus.pending) (apiErrorMsgBytes ++ natDecBytes 500) 100 ∧
    (checkJob (sampleJob JobStatus.pending) 100 (UpstreamCheck.gqlErrors [[88]])
        ProcessCall.ok).1 = sampleJob JobStatus.pending ∧
    (checkJob (sampleJob JobStatus.pending) 100 (UpstreamCheck.gqlErrors [notFoundBytes])
        ProcessCall.ok).1 =
      markJobFailed (sampleJob JobStatus.pending) snapshotNotFoundMsgBytes 100 :=
  ⟨poll_error_classification.1 [] 0,
   ⟨by decide,
    poll_error_classification.2.1 (sampleJob JobStatus.pending) 100 [77] ProcessCall.ok
      (by decide)⟩,
   poll_error_classification.2.2.1 (sampleJob JobStatus.pending) 100 500 [] ProcessCall.ok
     (by decide),
   poll_error_classification.2.2.2.1 (sampleJob JobStatus.pending) 100 [[88]] ProcessCall.ok
     (by decide) (by decide),
   poll_error_classification.2.2.2.2 (sampleJob JobStatus.pending) 100 [notFoundBytes]
     ProcessCall.ok (by decide) (by decide)⟩


theorem length_filterMap_eq_countP (f : Nat → Option (List Nat)) :
    ∀ l : List Nat, (l.filterMap f).length = l.countP (fun x => (f x).isSome) := by
  intro l
  induction l with
  | nil => rfl
  | cons a t ih =>
    rw [List.filterMap_cons, List.countP_cons]
    cases h : f a with
    | none => simp [h, ih]
    | some v => simp [h, ih]

theorem batchErrMsg_isSome (i : Nat) (o : BatchOutcome) :
    (batchErrMsg i o).isSome = !o.isOk := by
  cases o <;> rfl

theorem runBatches_spec (outcome : Nat → BatchOutcome) :
    ∀ (bs : List (List InventoryRecord)) (start : Nat) (db : List InventoryRecord),
      runBatches outcome bs start db =
        (bs.length - (List.range' start bs.length).countP (fun i => !(outcome i).isOk),
         (List.range' start bs.length).filterMap (fun i => batchErrMsg i (outcome i)),
         ((List.range' start bs.length).zip bs).foldl
           (fun d p => if (outcome p.1).isOk then bulkUpsert d p.2 else d) db) := by
  intro bs
  induction bs with
  | nil => intro start db; rfl
  | cons b rest ih =>
    intro start db
    have hc : (List.range' (start + 1) rest.length).countP (fun i => !(outcome i).isOk) ≤
        rest.length := by
      have h1 : (List.range' (start + 1) rest.length).countP (fun i => !(outcome i).isOk) ≤
          (List.range' (start + 1) rest.length).length :=
        List.countP_le_length _
      simpa [List.length_range'] using h1
    rw [List.length_cons, List.range'_succ start rest.length 1]
    simp only [List.countP_cons, List.filterMap_cons, List.zip_cons_cons, List.foldl_cons]
    rcases h : outcome start with _ | m | m
    · simp only [runBatches, h, ih]
      rw [show (!BatchOutcome.ok.isOk) = false from rfl,
          show batchErrMsg start BatchOutcome.ok = none from rfl]
      simp only [Bool.false_eq_true, if_false, Nat.add_zero]
      rw [show BatchOutcome.ok.isOk = true from rfl]
      simp only [if_true, Prod.mk.injEq]
      exact ⟨by omega, trivial⟩
    · simp only [runBatches, h, ih]
      rw [show (!(BatchOutcome.dbError m).isOk) = true from rfl,
          show batchErrMsg start (BatchOutcome.dbError m) =
            some (batchWordBytes ++ natDecBytes start ++ failedSepBytes ++ m) from rfl]
      simp only [if_true]
      rw [show (BatchOutcome.dbError m).isOk = false from rfl]
      simp only [Bool.false_eq_true, if_false, Prod.mk.injEq]
      exact ⟨by omega, trivial⟩
    · simp only [runBatches, h, ih]
      rw [show (!(BatchOutcome.thrown m).isOk) = true from rfl,
          show batchErrMsg start (BatchOutcome.thrown m) =
            some (batchWordBytes ++ natDecBytes start ++ exceptionSepBytes ++ m) from rfl]
      simp only [if_true]
      rw [show (BatchOutcome.thrown m).isOk = false from rfl]
      simp only [Bool.false_eq_true, if_false, Prod.mk.injEq]
      exact ⟨by omega, trivial⟩


/-- Claim C8 (confirmed). Partial batch failure: with E the nonempty set
of failing batch numbers, processBatches still attempts every batch,
reports batches_processed = n - |E|, records exactly one error per
failed batch (in order), reports success = false, and the final table is
the fold of exactly the successful batches' upserts over the initial
table — nothing is rolled back. -/
theorem processBatches_partial_failure (db records : List InventoryRecord)
    (outcome : Nat → BatchOutcome)
    (hE : ∃ i, 1 ≤ i ∧ i ≤ (chunks records).length ∧ (outcome i).isOk = false) :
    (processBatches db records outcome).batchesProcessed =
      (chunks records).length -
        (List.range' 1 (chunks records).length).countP (fun i => !(outcome i).isOk) ∧
    (processBatches db records outcome).errors =
      (List.range' 1 (chunks records).length).filterMap (fun i => batchErrMsg i (outcome i)) ∧
    (processBatches db records outcome).errors.length =
      (List.range' 1 (chunks records).length).countP (fun i => !(outcome i).isOk) ∧
    (processBatches db records outcome).success = false ∧
    (processBatches db records outcome).db =
      ((List.range' 1 (chunks records).length).zip (chunks records)).foldl
        (fun d p => if (outcome p.1).isOk then bulkUpsert d p.2 else d) db := by
  have hs := runBatches_spec outcome (chunks records) 1 db
  have herr : (processBatches db records outcome).errors =
      (List.range' 1 (chunks records).length).filterMap (fun i => batchErrMsg i (outcome i)) := by
    unfold processBatches
    rw [hs]
  have hlen : (processBatches db records outcome).errors.length =
      (List.range' 1 (chunks records).length).countP (fun i => !(outcome i).isOk) := by
    rw [herr, length_filterMap_eq_countP]
    apply List.countP_congr
    intro i _
    rw [batchErrMsg_isSome i (outcome i)]
  refine ⟨?_, herr, hlen, ?_, ?_⟩
  · unfold processBatches
    rw [hs]
  · obtain ⟨i, h1, h2, h3⟩ := hE
    have hmsome : ∃ msg, batchErrMsg i (outcome i) = some msg := by
      rcases ho : outcome i with _ | m | m
      · rw [ho] at h3
        simp [BatchOutcome.isOk] at h3
      · exact ⟨_, rfl⟩
      · exact ⟨_, rfl⟩
    obtain ⟨msg, hmsg⟩ := hmsome
    have hmem : msg ∈ (List.range' 1 (chunks records).length).filterMap
        (fun i => batchErrMsg i (outcome i)) :=
      List.mem_filterMap.mpr ⟨i, List.mem_range'_1.mpr ⟨h1, by omega⟩, hmsg⟩
    have hne2 : (List.range' 1 (chunks records).length).filterMap
        (fun i => batchErrMsg i (outcome i)) ≠ [] := by
      intro hnil
      rw [hnil] at hmem
      exact List.not_mem_nil msg hmem
    unfold processBatches
    rw [hs]
    simp only []
    cases hfm : (List.range' 1 (chunks records).length).filterMap
        (fun i => batchErrMsg i (outcome i)) with
    | nil => exact absurd hfm hne2
    | cons a t => rfl
  · unfold processBatches
    rw [hs]

set_option maxRecDepth 40000 in
/-- Witness for C8: 1001 records (two batches) with every batch failing. -/
theorem processBatches_partial_failure_witness :
    (∃ i, 1 ≤ i ∧ i ≤ (chunks sampleRecords1001).length ∧ ((allFailOutcome i).isOk = false)) ∧
    ((processBatches [] sampleRecords1001 allFailOutcome).batchesProcessed =
      (chunks sampleRecords1001).length -
        (List.range' 1 (chunks sampleRecords1001).length).countP
          (fun i => !(allFailOutcome i).isOk) ∧
    (processBatches [] sampleRecords1001 allFailOutcome).errors =
      (List.range' 1 (chunks sampleRecords1001).length).filterMap
        (fun i => batchErrMsg i (allFailOutcome i)) ∧
    (processBatches [] sampleRecords1001 allFailOutcome).errors.length =
      (List.range' 1 (chunks sampleRecords1001).length).countP
        (fun i => !(allFailOutcome i).isOk) ∧
    (processBatches [] sampleRecords1001 allFailOutcome).success = false ∧
    (processBatches [] sampleRecords1001 allFailOutcome).db =
      ((List.range' 1 (chunks sampleRecords1001).length).zip (chunks sampleRecords1001)).foldl
        (fun d p => if (allFailOutcome p.1).isOk then bulkUpsert d p.2 else d) []) :=
  ⟨⟨1, by decide⟩,
   processBatches_partial_failure [] sampleRecords1001 allFailOutcome ⟨1, by decide⟩⟩


/-- Claim C7 (confirmed). Format equivalence: for a products map with no
top-level products wrapper key, parsing the new-format document
{ products: P } and the legacy document P produce identical results
(records and all statistics). -/
theorem legacy_format_equivalence (fs : List (List Nat × Json))
    (h : ∀ v, List.lookup productsKey fs = some v → isObjectTruthy v = false) :
    parseAndExtract (Json.obj [(productsKey, Json.obj fs)]) = parseAndExtract (Json.obj fs) := by
  have h1 : productsDataOf (Json.obj [(productsKey, Json.obj fs)]) = Json.obj fs := by
    simp [productsDataOf, Json.getField, List.lookup, isObjectTruthy]
  have h2 : productsDataOf (Json.obj fs) = Json.obj fs := by
    cases hl : List.lookup productsKey fs with
    | none => simp [productsDataOf, Json.getField, hl]
    | some v => simp [productsDataOf, Json.getField, hl, h v hl]
  unfold parseAndExtract
  rw [h1, h2]

/-- Witness for C7 at a one-entry products map. -/
theorem legacy_format_equivalence_witness :
    (∀ v, List.lookup productsKey [([83], Json.num 1)] = some v → isObjectTruthy v = false) ∧
    parseAndExtract (Json.obj [(productsKey, Json.obj [([83], Json.num 1)])]) =
      parseAndExtract (Json.obj [([83], Json.num 1)]) :=
  ⟨(fun _ hv => nomatch hv),
   legacy_format_equivalence [([83], Json.num 1)] (fun _ hv => nomatch hv)⟩


theorem processBinEntry_spec (sku : List Nat) (wid : Int) (be : List Nat × Json)
    (hv : validBin be.2 = true) :
    processBinEntry sku wid be.1 be.2 = specBinRecord sku wid be := by
  rcases be with ⟨bk, bd⟩
  cases bd with
  | obj bfs =>
    simp only [validBin, Bool.and_eq_true] at hv
    obtain ⟨⟨hq, hn⟩, hl⟩ := hv
    obtain ⟨q, hgq⟩ : ∃ q, (Json.obj bfs).getField quantityKey = some (Json.num q) := by
      rcases hg : (Json.obj bfs).getField quantityKey with _ | v
      · rw [hg] at hq
        simp at hq
      · cases v with
        | num q => exact ⟨q, rfl⟩
        | null => rw [hg] at hq; simp at hq
        | bool b => rw [hg] at hq; simp at hq
        | str s => rw [hg] at hq; simp at hq
        | arr xs => rw [hg] at hq; simp at hq
        | obj o => rw [hg] at hq; simp at hq
    unfold processBinEntry specBinRecord
    rw [hgq]
    simp only [isObjectTruthy, Bool.not_true, Bool.false_eq_true, if_false, jsonQty]
    by_cases hq0 : q ≤ 0
    · rw [if_pos hq0, if_neg (by omega)]
    · rw [if_neg hq0, if_pos (by omega)]
  | null => simp [validBin] at hv
  | bool b => simp [validBin] at hv
  | num n => simp [validBin] at hv
  | str s => simp [validBin] at hv
  | arr xs => simp [validBin] at hv


theorem processWarehouseEntry_spec (sku : List Nat) (we : List Nat × Json)
    (hv : validWarehouseEntry we = true) :
    processWarehouseEntry sku we.1 we.2 = (specWarehouseRecords sku we, []) := by
  rcases we with ⟨wk, wd⟩
  simp only [validWarehouseEntry, Bool.and_eq_true] at hv
  obtain ⟨hdec, hrest⟩ := hv
  obtain ⟨wid, hwid⟩ : ∃ wid, decodeShipHeroId wk = some wid :=
    Option.isSome_iff_exists.mp hdec
  cases wd with
  | obj wfs =>
    simp only [Bool.and_eq_true] at hrest
    obtain ⟨honh, hbins⟩ := hrest
    unfold processWarehouseEntry specWarehouseRecords
    rw [hwid]
    simp only [isObjectTruthy, Bool.not_true, Bool.false_eq_true, if_false]
    rcases hib : (Json.obj wfs).getField itemBinsKey with _ | v
    · rw [show binsUsable none = false from rfl]
      simp only [Bool.false_eq_true, if_false]
      unfold defaultRecordOf specDefaultRecords
      rfl
    · rw [hib] at hbins
      cases v with
      | obj bs =>
        simp only [] at hbins
        cases hbe : bs.isEmpty
        · have hbu : binsUsable (some (Json.obj bs)) = true := by
            simp [binsUsable, isObjectTruthy, Json.entriesOf, hbe]
          rw [hbu]
          simp only [if_true, hbe, Bool.false_eq_true, if_false, Option.getD_some,
            Json.entriesOf]
          rw [List.filterMap_congr (fun be hbe2 => processBinEntry_spec sku wid be
            (by
              have := List.all_eq_true.mp hbins be hbe2
              simpa using this))]
        · have hbu : binsUsable (some (Json.obj bs)) = false := by
            simp [binsUsable, isObjectTruthy, Json.entriesOf, hbe]
          rw [hbu]
          simp only [Bool.false_eq_true, if_false, hbe, if_true]
          unfold defaultRecordOf specDefaultRecords
          rfl
      | null => simp at hbins
      | bool b => simp at hbins
      | num n => simp at hbins
      | str s => simp at hbins
      | arr xs => simp at hbins
  | null => simp at hrest
  | bool b => simp at hrest
  | num n => simp at hrest
  | str s => simp at hrest
  | arr xs => simp at hrest


theorem processSkuEntry_spec (se : List Nat × Json) (hv : validSkuEntry se = true) :
    processSkuEntry se =
      ((match se.2.getField warehouseProductsKey with
        | some (Json.obj ws) => (ws.map (specWarehouseRecords se.1)).flatten
        | _ => []), [], 1) := by
  rcases se with ⟨sku, sd⟩
  cases sd with
  | obj sfs =>
    simp only [validSkuEntry] at hv
    rcases hwp : (Json.obj sfs).getField warehouseProductsKey with _ | v
    · rw [hwp] at hv
      simp at hv
    · rw [hwp] at hv
      cases v with
      | obj ws =>
        simp only [] at hv
        unfold processSkuEntry
        rw [hwp]
        simp only [isObjectTruthy, Bool.not_true, Bool.false_eq_true, if_false,
          Json.entriesOf, if_true]
        have hrec : ws.map (fun we => processWarehouseEntry sku we.1 we.2) =
            ws.map (fun we => (specWarehouseRecords sku we, ([] : List (List Nat)))) :=
          List.map_congr_left (fun we hwe => processWarehouseEntry_spec sku we
            (List.all_eq_true.mp hv we hwe))
        rw [hrec]
        simp only [List.map_map, Prod.mk.injEq]
        refine ⟨?_, ?_, trivial⟩
        · exact congrArg List.flatten (List.map_congr_left (fun x _ => rfl))
        · have h2 : List.map
              (Prod.snd ∘ fun we => (specWarehouseRecords sku we, ([] : List (List Nat)))) ws =
              List.map (fun _ => ([] : List (List Nat))) ws :=
            List.map_congr_left (fun x _ => rfl)
          rw [h2]
          simp
      | null => simp at hv
      | bool b => simp at hv
      | num n => simp at hv
      | str s => simp at hv
      | arr xs => simp at hv
  | null => simp [validSkuEntry] at hv
  | bool b => simp [validSkuEntry] at hv
  | num n => simp [validSkuEntry] at hv
  | str s => simp [validSkuEntry] at hv
  | arr xs => simp [validSkuEntry] at hv

/-- Claim C2 (confirmed). Flattening correctness: for every valid
snapshot file (either format, detected by `productsDataOf`), the
Streaming Ingestion Engine emits exactly the records of the spec-side
comprehension — one record per bin entry with positive quantity and none
for entries at or below zero, with one DEFAULT record (null bin id) for
a warehouse entry with no bin breakdown and positive on_hand — and no
errors. -/
theorem flattening_matches_spec (j : Json) (fs : List (List Nat × Json))
    (hdet : productsDataOf j = Json.obj fs) (hv : validProducts fs = true) :
    (parseAndExtract j).1 = specExpectedRecords fs ∧
    (parseAndExtract j).2.errors = [] := by
  unfold parseAndExtract
  rw [hdet]
  simp only [Json.entriesOf]
  have hmap : fs.map processSkuEntry = fs.map (fun se =>
      ((match se.2.getField warehouseProductsKey with
        | some (Json.obj ws) => (ws.map (specWarehouseRecords se.1)).flatten
        | _ => []), ([] : List (List Nat)), 1)) :=
    List.map_congr_left (fun se hse => processSkuEntry_spec se
      (List.all_eq_true.mp hv se hse))
  rw [hmap]
  unfold specExpectedRecords
  constructor
  · simp only [List.map_map]
    exact congrArg List.flatten (List.map_congr_left (fun x _ => rfl))
  · simp only [List.map_map]
    have h2 : List.map
        ((fun o => o.2.1) ∘ fun se =>
          ((match se.2.getField warehouseProductsKey with
            | some (Json.obj ws) => (ws.map (specWarehouseRecords se.1)).flatten
            | _ => []), ([] : List (List Nat)), 1)) fs =
        List.map (fun _ => ([] : List (List Nat))) fs :=
      List.map_congr_left (fun x _ => rfl)
    rw [h2]
    simp

/-- Witness for C2: the scenario-1 snapshot of the spec, with plain-text
identifiers "Warehouse:1" and "Bin:10" (decoded via the base64 fallback)
and one bin "A-01" of quantity 5. -/
theorem flattening_matches_spec_witness :
    productsDataOf sampleSnapshot = Json.obj sampleProducts ∧
    validProducts sampleProducts = true ∧
    ((parseAndExtract sampleSnapshot).1 = specExpectedRecords sampleProducts ∧
     (parseAndExtract sampleSnapshot).2.errors = []) :=
  ⟨rfl, rfl, flattening_matches_spec sampleSnapshot sampleProducts rfl rfl⟩

end Snapshot
